import Mathlib

/-!
Verification of the `FaceCapture` widget (src/components/face/face-capture.tsx)
and the login / signup form handlers (src/components/forms/login-form.tsx,
src/components/forms/signup-form.tsx) of the IAfaceSIP repository.

The TypeScript component is shallowly embedded as follows.

* JSON values returned by the remote liveness endpoint are modelled by the
  inductive `Json`; JavaScript property access (`o.f`) is modelled by
  `getField`, distinguishing a thrown `TypeError` (access on `null`), the
  `undefined` result (missing field / access on a primitive) and a present
  value.  `JSON.parse` is modelled by an abstract string parser
  `parse : String -> Option Json` supplied by the environment; applying
  `JSON.parse` to a non-string value is modelled as a parse failure
  (the ECMAScript `ToString` coercion of non-string arguments is not
  modelled; the widget always receives JSON-grammar strings here).

* The component is modelled as an event-driven transition system
  (`stepM` / `exec`): one event per React handler or async continuation,
  each handler translated statement by statement.  React state updates
  inside one handler are modelled as taking effect synchronously, the
  `useEffect` reacting to `currentStream` is folded into the camera events
  (so `videoRef.srcObject` is identified with `currentStream`), and
  unmounting is modelled as terminal (no further events are delivered).
  Every externally visible action (camera acquisition, track stop, frame
  capture, the POST to the verification endpoint, a positive verification
  verdict, every `onFaceCaptured` invocation) is recorded in an output
  trace (`Out`).
-/

namespace FaceSip

/-- JSON values, as produced by `response.json()` / `JSON.parse`. -/
inductive Json where
  | null : Json
  | bool : Bool → Json
  | num : Int → Json
  | str : String → Json
  | arr : List Json → Json
  | obj : List (String × Json) → Json

/-- Result of a JavaScript property access `o.f`:
`thrown` models the `TypeError` raised when `o` is `null`,
`undef` the `undefined` obtained on primitives and missing keys. -/
inductive JsAccess where
  | thrown : JsAccess
  | undef : JsAccess
  | val : Json → JsAccess

/-- JavaScript property access `o.k`. -/
def getField : Json → String → JsAccess
  | Json.null, _ => JsAccess.thrown
  | Json.obj fields, k =>
    match fields.lookup k with
    | some v => JsAccess.val v
    | none => JsAccess.undef
  | _, _ => JsAccess.undef

/-- `JSON.parse` applied to the result of a property access: it succeeds only
when the accessed value is a string accepted by the JSON grammar parser
`parse` (face-capture.tsx lines 226-229 feed `outerResponse.response` and
`innerJsonResponse.response` to `JSON.parse`). -/
def jsonParseAccess (parse : String → Option Json) : JsAccess → Option Json
  | JsAccess.val (Json.str s) => parse s
  | _ => none

/-- Outcome of `fetch(...)` in the `onstop` handler (face-capture.tsx line 221):
either the promise rejects, or an HTTP response arrives with `ok : Bool` and a
body (`none` when `response.json()` itself throws). -/
inductive FetchOutcome where
  | fetchThrew : FetchOutcome
  | http : Bool → Option Json → FetchOutcome

/-- The verification verdict extracted by the `onstop` handler
(face-capture.tsx lines 222-231):
`none` models every thrown path (non-ok status, `response.json()` failure,
malformed doubly-nested payload), `some b` the value of
`finalData.isLivePerson === true`. -/
def decodeLiveness (parse : String → Option Json) : FetchOutcome → Option Bool
  | FetchOutcome.fetchThrew => none
  | FetchOutcome.http ok body =>
    if ok then
      match body with
      | none => none
      | some outerResponse =>
        match jsonParseAccess parse (getField outerResponse "response") with
        | none => none
        | some innerJsonResponse =>
          match jsonParseAccess parse (getField innerJsonResponse "response") with
          | none => none
          | some finalData =>
            match getField finalData "isLivePerson" with
            | JsAccess.thrown => none
            | JsAccess.undef => some false
            | JsAccess.val (Json.bool true) => some true
            | JsAccess.val _ => some false
    else none

theorem jsonParseAccess_eq_some (parse : String → Option Json) (a : JsAccess)
    (j : Json) (h : jsonParseAccess parse a = some j) :
    ∃ s, a = JsAccess.val (Json.str s) ∧ parse s = some j := by
  match a with
  | JsAccess.thrown => simp [jsonParseAccess] at h
  | JsAccess.undef => simp [jsonParseAccess] at h
  | JsAccess.val v =>
    match v with
    | Json.str s => exact ⟨s, rfl, h⟩
    | Json.null | Json.bool _ | Json.num _ | Json.arr _ | Json.obj _ =>
      simp [jsonParseAccess] at h

theorem decodeLiveness_eq_some_true_iff (parse : String → Option Json)
    (f : FetchOutcome) :
    decodeLiveness parse f = some true ↔
      ∃ body s1 j1 s2 j2,
        f = FetchOutcome.http true (some body) ∧
        getField body "response" = JsAccess.val (Json.str s1) ∧
        parse s1 = some j1 ∧
        getField j1 "response" = JsAccess.val (Json.str s2) ∧
        parse s2 = some j2 ∧
        getField j2 "isLivePerson" = JsAccess.val (Json.bool true) := by
  constructor
  · intro h
    match f with
    | FetchOutcome.fetchThrew => simp [decodeLiveness] at h
    | FetchOutcome.http false body => simp [decodeLiveness] at h
    | FetchOutcome.http true none => simp [decodeLiveness] at h
    | FetchOutcome.http true (some outer) =>
      simp only [decodeLiveness, if_true] at h
      split at h
      · simp at h
      rename_i j1 h1
      split at h
      · simp at h
      rename_i j2 h2
      split at h
      · simp at h
      · simp at h
      · rename_i h3
        obtain ⟨s1, hp1, hs1⟩ := jsonParseAccess_eq_some parse _ _ h1
        obtain ⟨s2, hp2, hs2⟩ := jsonParseAccess_eq_some parse _ _ h2
        exact ⟨outer, s1, j1, s2, j2, rfl, hp1, hs1, hp2, hs2, h3⟩
      · simp at h
  · rintro ⟨body, s1, j1, s2, j2, rfl, hb, hp1, hj, hp2, hl⟩
    simp [decodeLiveness, hb, jsonParseAccess, hp1, hj, hp2, hl]

/-! ## The capture-widget state machine -/

/-- The `context` prop of `FaceCapture` (face-capture.tsx line 15). -/
inductive Ctx where
  | login : Ctx
  | signup : Ctx
  | adminUpdate : Ctx
deriving DecidableEq

/-- The `LivenessStep` union type (face-capture.tsx lines 19-29). -/
inductive LivenessStep where
  | initial : LivenessStep
  | awaiting_models : LivenessStep
  | awaiting_camera_for_video : LivenessStep
  | recording_video : LivenessStep
  | verifying_video_with_api : LivenessStep
  | liveness_api_passed_awaiting_final_camera : LivenessStep
  | liveness_api_passed_ready_for_manual_final_capture : LivenessStep
  | final_capture_active : LivenessStep
  | processing_final_capture : LivenessStep
  | liveness_failed_or_error : LivenessStep
deriving DecidableEq

/-- face-capture.tsx line 31. -/
def VIDEO_RECORDING_DURATION_MS : Nat := 5000

/-- face-capture.tsx line 32. -/
def MAX_VIDEO_SIZE_MB : Nat := 6

/-- The distinct error messages assigned by `setError`; the claims only
depend on whether `error` is null, so the message text is replaced by a tag
naming the assigning statement. -/
inductive ErrTag where
  | invalidStream : ErrTag       -- line 149
  | videoTooBig : ErrTag         -- line 210
  | livenessRejected : ErrTag    -- line 245
  | apiFailure : ErrTag          -- line 252
  | recInitFailed : ErrTag       -- line 271
  | cameraFailed : ErrTag        -- lines 303-306
  | playFailed : ErrTag          -- line 349
  | modelsFailed : ErrTag        -- line 130
deriving DecidableEq

/-- The state of the `MediaRecorder` object held by `mediaRecorderRef`:
`recording` after `start()`, `inactive` after `stop()`. -/
inductive RecorderPhase where
  | recording : RecorderPhase
  | inactive : RecorderPhase
deriving DecidableEq

/-- The `purpose` argument of `startCamera` (face-capture.tsx line 279). -/
inductive CamPurpose where
  | videoLiveness : CamPurpose
  | finalCapture : CamPurpose
deriving DecidableEq

/-- A single-face detection result of
`faceapi.detectSingleFace(..).withFaceLandmarks().withFaceDescriptor()`;
only its descriptor (`Array.from(detection.descriptor)`) is relevant to the
widget.  The numeric content of the embedding vector never influences
control flow, so its scalars are modelled as integers. -/
structure FaceDetection where
  descriptor : List Int
deriving DecidableEq

/-- Externally visible actions of the widget, recorded in the trace. -/
inductive Out where
  | acquire : Nat → Out
    -- `getUserMedia` resolved with a fresh stream (line 299)
  | trackStop : Nat → Out
    -- all tracks of a stream were stopped (line 92 / 372)
  | recStart : Out
    -- `MediaRecorder.start()` succeeded (line 258)
  | frameLoginTaken : Out
    -- still frame drawn from the video in the login branch of `onstop` (lines 191-192)
  | frameFinalTaken : Out
    -- still frame drawn in `handleManualFinalCapture` (lines 492-493)
  | request : Out
    -- POST to the verification endpoint (line 221)
  | apiPass : Out
    -- the decoded response satisfied `isLivePerson === true` (line 233)
  | cb : Option String → Option (List Int) → Bool → Out
    -- `onFaceCaptured(dataUrl, descriptor, livenessVerificationPassed)`
deriving DecidableEq

/-- The React state, refs and pending async continuations of one
`FaceCapture` instance.  `liveStreams` lists the ids of acquired
`MediaStream`s whose tracks have not been stopped yet; `pendingCamera`
records an unresolved `getUserMedia` call, `onstopPending` a stopped
recorder whose `onstop` handler has not run yet, `modelsPending` an
unresolved `loadModels` call. -/
structure WState where
  step : LivenessStep
  error : Option ErrTag
  currentStream : Option Nat
  cameraActive : Bool
  startingCamera : Bool
  recording : Bool
  verifying : Bool
  processingFinal : Bool
  recorder : Option RecorderPhase
  pendingCamera : Option CamPurpose
  onstopPending : Bool
  modelsLoaded : Bool
  modelsPending : Bool
  liveStreams : List Nat
  nextId : Nat
  unmounted : Bool
deriving DecidableEq

/-- State after the first render: the mount effect (line 136) has called
`loadModels`, which set the step to `awaiting_models` and is awaiting the
model downloads. -/
def initState : WState where
  step := LivenessStep.awaiting_models
  error := none
  currentStream := none
  cameraActive := false
  startingCamera := false
  recording := false
  verifying := false
  processingFinal := false
  recorder := none
  pendingCamera := none
  onstopPending := false
  modelsLoaded := false
  modelsPending := true
  liveStreams := []
  nextId := 0
  unmounted := false

/-- `stopCamera` (face-capture.tsx lines 73-109): stops a still-recording
recorder (which queues its `onstop` handler) and releases it, stops all
tracks of the stream attached to the video element (identified with
`currentStream`), and clears `currentStream` / `isCameraActive`. -/
def stopCameraM (s : WState) : WState × List Out :=
  let stopsRec : Bool := s.recorder = some RecorderPhase.recording
  let outs : List Out :=
    match s.currentStream with
    | some id => [Out.trackStop id]
    | none => []
  let live : List Nat :=
    match s.currentStream with
    | some id => s.liveStreams.erase id
    | none => s.liveStreams
  ({ s with
      recorder := none
      onstopPending := s.onstopPending || stopsRec
      currentStream := none
      cameraActive := false
      liveStreams := live }, outs)

/-- Environment facts consumed while starting a recording: whether the
stream passed to `startRecordingSequence` is still active and non-empty
(line 147), and whether constructing and starting the `MediaRecorder`
succeeds (lines 166-258). -/
structure RecEnv where
  streamOk : Bool
  recInitOk : Bool
deriving DecidableEq

/-- `startRecordingSequence` (face-capture.tsx lines 141-276) up to and
including `MediaRecorder.start()`; the `onstop` handler is modelled
separately (`onstopM`) and runs when the recorder stops. -/
def startRecordingSeqM (s : WState) (renv : RecEnv) : WState × List Out :=
  if s.recording then (s, [])
  else if renv.streamOk = false then
    -- lines 147-152: invalid stream: setError, step failed, stopCamera
    stopCameraM { s with
      error := some ErrTag.invalidStream
      step := LivenessStep.liveness_failed_or_error }
  else
    let s1 := { s with recording := true, step := LivenessStep.recording_video }
    if renv.recInitOk then
      ({ s1 with recorder := some RecorderPhase.recording }, [Out.recStart])
    else
      -- lines 266-275: catch: setIsRecording(false), setError, stopCamera,
      -- onFaceCaptured(null, null, false), step failed
      let s2 := { s1 with recording := false, error := some ErrTag.recInitFailed }
      let r3 := stopCameraM s2
      ({ r3.1 with step := LivenessStep.liveness_failed_or_error },
        r3.2 ++ [Out.cb none none false])

/-- The synchronous prefix of `startCamera` (face-capture.tsx lines
279-313): the re-entry guards, and otherwise the state updates up to the
`await getUserMedia` (recorded in `pendingCamera`; the resolution is the
separate `cameraOk` / `cameraErr` event). -/
def startCameraSyncM (c : Ctx) (s : WState) (purpose : CamPurpose)
    (renv : RecEnv) : WState × List Out :=
  if s.startingCamera then (s, [])
  else if s.currentStream.isSome && s.cameraActive then
    if purpose = CamPurpose.videoLiveness ∧ c = Ctx.login ∧
        s.step = LivenessStep.awaiting_camera_for_video ∧ s.recording = false then
      startRecordingSeqM s renv
    else if purpose = CamPurpose.finalCapture ∧
        s.step ≠ LivenessStep.final_capture_active ∧
        (c = Ctx.signup ∨ c = Ctx.adminUpdate) then
      ({ s with step := LivenessStep.final_capture_active }, [])
    else (s, [])
  else
    ({ s with
        error := none
        startingCamera := true
        step := match purpose with
          | CamPurpose.videoLiveness => LivenessStep.awaiting_camera_for_video
          | CamPurpose.finalCapture =>
            LivenessStep.liveness_api_passed_awaiting_final_camera
        pendingCamera := some purpose }, [])

/-- Environment facts consumed by the `onstop` handler: whether the video
element still has a current frame of positive width (line 184), the data
URL of the captured canvas, the single-face detection on that canvas
(`none` covers both "no face found" and a thrown detection, lines 193-199),
the size of the recorded blob, the fetch outcome and the JSON grammar
parser of the runtime. -/
structure OnstopIn where
  frameOk : Bool
  frameData : String
  detection : Option FaceDetection
  blobSize : Nat
  fetch : FetchOutcome
  parse : String → Option Json

/-- The `MediaRecorder.onstop` handler (face-capture.tsx lines 172-256),
translated statement by statement. -/
def onstopM (c : Ctx) (s : WState) (oin : OnstopIn) : WState × List Out :=
  -- lines 174-178: setIsRecording(false), build blob, release recorder
  let s0 := { s with recording := false, recorder := none }
  -- lines 183-202: login-only still frame + descriptor from the video frame
  let frameCaptured : Bool :=
    c = Ctx.login && s.modelsLoaded && oin.frameOk
  let loginFrameDataUrl : Option String :=
    if frameCaptured then some oin.frameData else none
  let loginFrameDescriptor : Option (List Int) :=
    if frameCaptured then oin.detection.map (fun d => d.descriptor) else none
  let outs0 : List Out := if frameCaptured then [Out.frameLoginTaken] else []
  -- line 204: stopCamera before the API call
  let r1 := stopCameraM s0
  -- lines 205-206
  let s2 := { r1.1 with
    step := LivenessStep.verifying_video_with_api
    verifying := true }
  -- lines 208-215: size check, no request sent
  if oin.blobSize > MAX_VIDEO_SIZE_MB * 1024 * 1024 then
    ({ s2 with
        error := some ErrTag.videoTooBig
        step := LivenessStep.liveness_failed_or_error
        verifying := false },
      outs0 ++ r1.2 ++ [Out.cb none none false])
  else
    -- lines 217-255: POST and response handling
    match decodeLiveness oin.parse oin.fetch with
    | some true =>
      if c = Ctx.login then
        -- lines 234-238
        ({ s2 with
            step := LivenessStep.liveness_api_passed_awaiting_final_camera
            verifying := false },
          outs0 ++ r1.2 ++
            [Out.request, Out.apiPass,
             Out.cb loginFrameDataUrl loginFrameDescriptor true])
      else
        -- lines 239-242
        ({ s2 with
            step :=
              LivenessStep.liveness_api_passed_ready_for_manual_final_capture
            verifying := false },
          outs0 ++ r1.2 ++ [Out.request, Out.apiPass])
    | some false =>
      -- lines 243-248
      ({ s2 with
          error := some ErrTag.livenessRejected
          step := LivenessStep.liveness_failed_or_error
          verifying := false },
        outs0 ++ r1.2 ++ [Out.request, Out.cb none none false])
    | none =>
      -- lines 249-255
      ({ s2 with
          error := some ErrTag.apiFailure
          step := LivenessStep.liveness_failed_or_error
          verifying := false },
        outs0 ++ r1.2 ++ [Out.request, Out.cb none none false])

/-- Environment facts consumed by `handleManualFinalCapture`: whether the
video and canvas refs are non-null (line 480), the data URL of the captured
canvas, and the single-face detection on it (`none` covers "no face" and a
thrown detection, lines 495-506). -/
structure ManualIn where
  refsOk : Bool
  frameData : String
  detection : Option FaceDetection

/-- `handleManualFinalCapture` (face-capture.tsx lines 479-511). -/
def manualM (c : Ctx) (s : WState) (m : ManualIn) : WState × List Out :=
  if m.refsOk ∧ s.currentStream.isSome ∧ s.cameraActive ∧
      s.step = LivenessStep.final_capture_active ∧
      (c = Ctx.signup ∨ c = Ctx.adminUpdate) then
    let s1 := { s with
      processingFinal := true
      step := LivenessStep.processing_final_capture }
    let descriptor : Option (List Int) := m.detection.map (fun d => d.descriptor)
    -- line 507: onFaceCaptured(dataUrl, descriptor, true), then stopCamera,
    -- then reset flags and step
    let r2 := stopCameraM s1
    ({ r2.1 with
        processingFinal := false
        step := LivenessStep.initial },
      [Out.frameFinalTaken, Out.cb (some m.frameData) descriptor true] ++ r2.2)
  else
    -- lines 480-484: error toast, nothing is called
    (s, [])

/-- The `setTimeout` callback scheduled after `MediaRecorder.start()`
(face-capture.tsx lines 260-265): stops the recorder if and only if it is
still recording; the second component records whether `stop()` was
called. -/
def timerCallback : Option RecorderPhase → Option RecorderPhase × Bool
  | some RecorderPhase.recording => (some RecorderPhase.inactive, true)
  | r => (r, false)

/-- The DOM timer delivers that callback `VIDEO_RECORDING_DURATION_MS`
milliseconds after `start()`. -/
def timerDeliveryTime (startedAt : Nat) : Nat :=
  startedAt + VIDEO_RECORDING_DURATION_MS

/-- `handleRetry` (face-capture.tsx lines 513-524). -/
def retryM (s : WState) : WState × List Out :=
  let r1 := stopCameraM s
  ({ r1.1 with
      error := none
      recording := false
      verifying := false
      processingFinal := false
      step := if r1.1.modelsLoaded then LivenessStep.initial
        else LivenessStep.awaiting_models
      modelsPending := r1.1.modelsPending || !r1.1.modelsLoaded }, r1.2)

/-- `showInitialButton` together with the button's `disabled` condition
(face-capture.tsx lines 537-542 and 598-604); `pp` is the
`isParentProcessing` prop. -/
def clickStartEnabled (c : Ctx) (s : WState) (pp : Bool) : Prop :=
  (s.step = LivenessStep.initial ∨
    (s.step = LivenessStep.liveness_api_passed_awaiting_final_camera ∧
      c = Ctx.login ∧ pp = false)) ∧
  s.modelsLoaded = true ∧ s.error = none ∧ s.startingCamera = false ∧
  s.recording = false ∧ s.verifying = false ∧
  ¬(c = Ctx.login ∧ pp = true)

instance (c : Ctx) (s : WState) (pp : Bool) :
    Decidable (clickStartEnabled c s pp) := by
  unfold clickStartEnabled; infer_instance

/-- `showManualFinalCaptureButton` together with that button's `disabled`
condition (face-capture.tsx lines 545 and 618). -/
def clickManualEnabled (c : Ctx) (s : WState) : Prop :=
  (s.step = LivenessStep.liveness_api_passed_ready_for_manual_final_capture ∨
    s.step = LivenessStep.final_capture_active) ∧
  s.cameraActive = true ∧ s.processingFinal = false ∧
  (c = Ctx.signup ∨ c = Ctx.adminUpdate) ∧ s.startingCamera = false

instance (c : Ctx) (s : WState) : Decidable (clickManualEnabled c s) := by
  unfold clickManualEnabled; infer_instance

/-- `showRetryButton` (face-capture.tsx line 544). -/
def clickRetryEnabled (s : WState) : Prop :=
  s.step = LivenessStep.liveness_failed_or_error ∧ s.startingCamera = false ∧
  s.recording = false ∧ s.verifying = false ∧ s.processingFinal = false

instance (s : WState) : Decidable (clickRetryEnabled s) := by
  unfold clickRetryEnabled; infer_instance

/-- Events of the widget: user clicks on the rendered buttons, resolutions
of pending async operations, and the `useEffect` transitions. -/
inductive Event where
  | modelsOk : Event
    -- `loadModels` succeeded (lines 121-127)
  | modelsErr : Event
    -- `loadModels` failed (lines 128-133)
  | clickStart : Bool → RecEnv → Event
    -- `handleStartHumanVerification` (lines 416-430); carries `isParentProcessing`
  | cameraOk : Event
    -- `getUserMedia` resolved (lines 299-301)
  | cameraErr : Event
    -- `getUserMedia` rejected (lines 302-312)
  | playOk : RecEnv → Event
    -- `loadedmetadata` fired and `video.play()` resolved (lines 328-344)
  | playErr : Event
    -- `video.play()` rejected (lines 345-352)
  | timeoutFires : Event
    -- the recording timer fired (lines 260-265)
  | onstopRuns : OnstopIn → Event
    -- the queued `onstop` handler runs (lines 172-256)
  | effectStartFinalCam : Event
    -- useEffect lines 432-436
  | effectFinalActive : Event
    -- useEffect lines 383-389
  | clickManual : ManualIn → Event
    -- `handleManualFinalCapture` (lines 479-511)
  | clickRetry : Event
    -- `handleRetry` (lines 513-524)
  | unmount : Event
    -- the unmount cleanup (lines 526-531); modelled as terminal

/-- The handler / continuation run by each event (see `stepM` for the
enabledness gate on unmounted components). -/
def stepCore (c : Ctx) (s : WState) : Event → Option (WState × List Out)
  | Event.modelsOk =>
    if s.modelsPending then
      some ({ s with
        modelsPending := false
        modelsLoaded := true
        step := LivenessStep.initial }, [])
    else none
  | Event.modelsErr =>
    if s.modelsPending then
      some ({ s with
        modelsPending := false
        error := some ErrTag.modelsFailed
        step := LivenessStep.liveness_failed_or_error }, [])
    else none
  | Event.clickStart pp renv =>
    if clickStartEnabled c s pp then
      -- lines 422-429: setError(null), reset flags if not initial,
      -- startCamera('video_liveness')
      some (startCameraSyncM c
        { s with error := none, recording := false, verifying := false }
        CamPurpose.videoLiveness renv)
    else none
  | Event.cameraOk =>
    match s.pendingCamera with
    | some _ =>
      some ({ s with
          pendingCamera := none
          startingCamera := false
          currentStream := some s.nextId
          liveStreams := s.liveStreams ++ [s.nextId]
          nextId := s.nextId + 1 }, [Out.acquire s.nextId])
    | none => none
  | Event.cameraErr =>
    match s.pendingCamera with
    | some _ =>
      some ({ s with
          pendingCamera := none
          startingCamera := false
          error := some ErrTag.cameraFailed
          step := LivenessStep.liveness_failed_or_error
          currentStream := none }, [])
    | none => none
  | Event.playOk renv =>
    if s.currentStream.isSome && !s.cameraActive then
      if c = Ctx.login ∧ s.step = LivenessStep.awaiting_camera_for_video ∧
          s.recording = false then
        some (startRecordingSeqM { s with cameraActive := true } renv)
      else some ({ s with cameraActive := true }, [])
    else none
  | Event.playErr =>
    if s.currentStream.isSome && !s.cameraActive then
      some (stopCameraM { s with
        error := some ErrTag.playFailed
        step := LivenessStep.liveness_failed_or_error })
    else none
  | Event.timeoutFires =>
    some ({ s with
      recorder := (timerCallback s.recorder).1
      onstopPending := s.onstopPending || (timerCallback s.recorder).2 }, [])
  | Event.onstopRuns oin =>
    if s.onstopPending then
      some (onstopM c { s with onstopPending := false } oin)
    else none
  | Event.effectStartFinalCam =>
    if s.step =
        LivenessStep.liveness_api_passed_ready_for_manual_final_capture ∧
        (c = Ctx.signup ∨ c = Ctx.adminUpdate) then
      some (startCameraSyncM c s CamPurpose.finalCapture
        { streamOk := true, recInitOk := true })
    else none
  | Event.effectFinalActive =>
    if s.cameraActive = true ∧
        s.step = LivenessStep.liveness_api_passed_awaiting_final_camera ∧
        (c = Ctx.signup ∨ c = Ctx.adminUpdate) then
      some ({ s with step := LivenessStep.final_capture_active }, [])
    else none
  | Event.clickManual m =>
    if clickManualEnabled c s then some (manualM c s m) else none
  | Event.clickRetry =>
    if clickRetryEnabled s then some (retryM s) else none
  | Event.unmount =>
    some ({ (stopCameraM s).1 with unmounted := true }, (stopCameraM s).2)

/-- One transition of the widget: `none` when the event is not enabled in
state `s` (button not rendered / disabled, no matching pending async
operation, effect guard false, or component unmounted). -/
def stepM (c : Ctx) (s : WState) (e : Event) : Option (WState × List Out) :=
  if s.unmounted then none else stepCore c s e

/-- Run a list of events from a state, collecting the output trace; `none`
if some event is not enabled where it occurs. -/
def exec (c : Ctx) (s : WState) : List Event → Option (WState × List Out)
  | [] => some (s, [])
  | e :: es =>
    (stepM c s e).bind fun r1 =>
      (exec c r1.1 es).map fun r2 => (r2.1, r1.2 ++ r2.2)

/-! ## Form handlers -/

/-- Arguments of `loginWithFace` (login-form.tsx line 36). -/
structure LoginCall where
  faceDataUrl : Option String
  faceDescriptor : List Int
deriving DecidableEq

/-- Arguments of `signup` (signup-form.tsx line 57). -/
structure SignupCall where
  name : String
  email : String
  faceDataUrl : String
  faceDescriptor : List Int
deriving DecidableEq

/-- Result of one form handler run: the auth call made (if any) and whether
a rejection toast was shown before returning without calling. -/
structure FormOut (α : Type) where
  call : Option α
  toastShown : Bool
deriving DecidableEq

/-- JavaScript truthiness of a nullable string: `null` and `""` are falsy. -/
def strFalsy : Option String → Bool
  | none => true
  | some s => s = ""

/-- `handleFaceVerifiedAndCaptured` of `LoginForm` (login-form.tsx lines
20-49): guards on `authLoading`, an empty user list and a missing
descriptor, then calls `loginWithFace(faceDataUrl, faceDescriptor)`.
The liveness flag is not part of this handler's signature. -/
def loginHandleFace (authLoading : Bool) (usersCount : Nat)
    (faceDataUrl : Option String) (faceDescriptor : Option (List Int)) :
    FormOut LoginCall :=
  if authLoading = true then { call := none, toastShown := true }
  else if usersCount = 0 ∧ authLoading = false then
    { call := none, toastShown := true }
  else
    match faceDescriptor with
    | none => { call := none, toastShown := true }
    | some d => { call := some { faceDataUrl := faceDataUrl, faceDescriptor := d },
                  toastShown := false }

/-- `handleFaceVerifiedAndCaptured` of `SignupForm` (signup-form.tsx lines
24-57): guards on missing name/email, a false liveness flag (silent
return), and missing capture data, then calls
`signup(name, email, faceDataUrl, faceDescriptor)`.
`lp` models the optional `livenessVerificationPassed` argument
(`none` = `undefined`). -/
def signupHandleFace (name email : String) (faceDataUrl : Option String)
    (faceDescriptor : Option (List Int)) (lp : Option Bool) :
    FormOut SignupCall :=
  if name = "" ∨ email = "" then { call := none, toastShown := true }
  else if lp = some false then { call := none, toastShown := false }
  else if lp = some true ∧
      (strFalsy faceDataUrl = true ∨ faceDescriptor = none) then
    { call := none, toastShown := true }
  else if lp = none ∨ strFalsy faceDataUrl = true ∨ faceDescriptor = none then
    { call := none, toastShown := true }
  else
    match faceDataUrl, faceDescriptor with
    | some du, some d =>
      { call := some { name := name, email := email, faceDataUrl := du,
                       faceDescriptor := d },
        toastShown := false }
    | _, _ =>
      -- unreachable: ruled out by the previous branch
      { call := none, toastShown := true }

/-! ## Trace predicates

`okFrom t e en l` scans the output list `l` and checks that every
`t`-output is preceded by an `e`-output (within `l`, or before `l` when
`en = true`); after the first `e`-output everything is allowed. -/

def okFrom (t e : Out → Bool) : Bool → List Out → Bool
  | _, [] => true
  | en, x :: xs =>
    if e x then okFrom t e true xs
    else if t x then en && okFrom t e en xs
    else okFrom t e en xs

theorem okFrom_of_en (t e : Out → Bool) (l : List Out) :
    okFrom t e true l = true := by
  induction l with
  | nil => rfl
  | cons x xs ih => by_cases h1 : e x <;> by_cases h2 : t x <;> simp [okFrom, h1, h2, ih]

theorem okFrom_of_false (t e : Out → Bool) (l : List Out) (en : Bool)
    (h : okFrom t e false l = true) : okFrom t e en l = true := by
  induction l generalizing en with
  | nil => rfl
  | cons x xs ih =>
    by_cases h1 : e x
    · simpa [okFrom, h1] using h
    · by_cases h2 : t x
      · simp [okFrom, h1, h2] at h
      · simp only [okFrom, if_neg h1, if_neg h2] at h ⊢
        exact ih en h

theorem okFrom_append (t e : Out → Bool) (l1 l2 : List Out) (en : Bool) :
    okFrom t e en (l1 ++ l2) =
      (okFrom t e en l1 && okFrom t e (en || l1.any e) l2) := by
  induction l1 generalizing en with
  | nil => simp [okFrom]
  | cons x xs ih =>
    by_cases h1 : e x
    · simp [okFrom, h1, ih, okFrom_of_en]
    · by_cases h2 : t x
      · simp only [List.cons_append, okFrom, if_neg h1, if_pos h2, ih,
          List.any_cons, h1]
        cases en <;> simp [ih]
      · simp [okFrom, h1, h2, ih]

/-- Extracting the decomposition form: if the scan succeeds and `x` is a
`t`-output occurring after prefix `pre`, then either the scan started
enabled or `pre` holds an `e`-output.  `hte` rules out outputs that are
both trigger and enabler. -/
theorem okFrom_decomp (t e : Out → Bool)
    (hte : ∀ x, e x = true → t x = false) :
    ∀ (pre : List Out) (x : Out) (post : List Out) (en : Bool),
      okFrom t e en (pre ++ x :: post) = true → t x = true →
      en = true ∨ pre.any e = true := by
  intro pre
  induction pre with
  | nil =>
    intro x post en h htx
    by_cases h1 : e x
    · rw [hte x h1] at htx; exact absurd htx (by simp)
    · simp only [List.nil_append, okFrom, if_neg h1, if_pos htx,
        Bool.and_eq_true] at h
      exact Or.inl h.1
  | cons y ys ih =>
    intro x post en h htx
    by_cases h1 : e y
    · simp [List.any_cons, h1]
    · by_cases h2 : t y
      · simp only [List.cons_append, okFrom, if_neg h1, if_pos h2,
          Bool.and_eq_true] at h
        rcases ih x post en h.2 htx with h3 | h3
        · exact Or.inl h3
        · exact Or.inr (by simp [List.any_cons, h3])
      · simp only [List.cons_append, okFrom, if_neg h1, if_neg h2] at h
        rcases ih x post en h htx with h3 | h3
        · exact Or.inl h3
        · exact Or.inr (by simp [List.any_cons, h3])

/-- `onFaceCaptured` invocations with `livenessVerificationPassed = true`. -/
def isCbTrue : Out → Bool
  | Out.cb _ _ true => true
  | _ => false

/-- All `onFaceCaptured` invocations. -/
def isCb : Out → Bool
  | Out.cb _ _ _ => true
  | _ => false

def isApiPass : Out → Bool
  | Out.apiPass => true
  | _ => false

def isRequest : Out → Bool
  | Out.request => true
  | _ => false

def isRecStart : Out → Bool
  | Out.recStart => true
  | _ => false

def isAcquire : Out → Bool
  | Out.acquire _ => true
  | _ => false

def isFrameFinal : Out → Bool
  | Out.frameFinalTaken => true
  | _ => false

/-- Outputs that presuppose a positive liveness verdict: a final-capture
frame, or an `onFaceCaptured` call with the flag `true`. -/
def isLiveDelivery (x : Out) : Bool := isCbTrue x || isFrameFinal x

/-- Steps that are only entered after a positive liveness verdict. -/
def postPassStep : LivenessStep → Bool
  | LivenessStep.liveness_api_passed_awaiting_final_camera => true
  | LivenessStep.liveness_api_passed_ready_for_manual_final_capture => true
  | LivenessStep.final_capture_active => true
  | LivenessStep.processing_final_capture => true
  | _ => false

def bitPass (s : WState) : Bool := postPassStep s.step

def bitRec (s : WState) : Bool :=
  s.onstopPending || s.recorder.isSome || s.recording

def bitCam (s : WState) : Bool := s.currentStream.isSome

theorem okFrom_no_trigger (t e : Out → Bool) (l : List Out)
    (h : ∀ x ∈ l, t x = false) (en : Bool) : okFrom t e en l = true := by
  induction l generalizing en with
  | nil => rfl
  | cons x xs ih =>
    by_cases h1 : e x
    · simp only [okFrom, if_pos h1]
      exact okFrom_of_en t e xs
    · simp only [okFrom, if_neg h1, h x (by simp), if_false, Bool.false_eq_true]
      exact ih (fun y hy => h y (by simp [hy])) en

theorem stopCameraM_snd (s : WState) :
    ∀ x ∈ (stopCameraM s).2, ∃ id, x = Out.trackStop id := by
  cases h : s.currentStream <;> simp [stopCameraM, h]

theorem stopCameraM_step (s : WState) : (stopCameraM s).1.step = s.step := rfl

theorem okFrom_append_no_trigger (t e : Out → Bool) (l1 l2 : List Out)
    (h : ∀ x ∈ l1, t x = false) (en : Bool) :
    okFrom t e en (l1 ++ l2) = okFrom t e (en || l1.any e) l2 := by
  rw [okFrom_append, okFrom_no_trigger t e l1 h en, Bool.true_and]

theorem okFrom_append_of (t e : Out → Bool) (l1 l2 : List Out)
    (h1 : ∀ x ∈ l1, t x = false) (h2 : ∀ en, okFrom t e en l2 = true)
    (en : Bool) : okFrom t e en (l1 ++ l2) = true := by
  induction l1 generalizing en with
  | nil => simpa using h2 en
  | cons x xs ih =>
    by_cases hx : e x
    · simp only [List.cons_append, okFrom, if_pos hx]
      exact ih (fun y hy => h1 y (by simp [hy])) true
    · simp only [List.cons_append, okFrom, if_neg hx, h1 x (by simp),
        if_false, Bool.false_eq_true]
      exact ih (fun y hy => h1 y (by simp [hy])) en

theorem pairA_startRecordingSeqM (s : WState) (renv : RecEnv) (en : Bool) :
    okFrom isLiveDelivery isApiPass en (startRecordingSeqM s renv).2 = true ∧
    (bitPass (startRecordingSeqM s renv).1 = true → bitPass s = true) := by
  unfold startRecordingSeqM
  split_ifs with h1 h2 h3
  · exact ⟨rfl, fun h => h⟩
  · constructor
    · exact okFrom_no_trigger _ _ _
        (fun x hx => by obtain ⟨id, rfl⟩ := stopCameraM_snd _ x hx; rfl) en
    · intro hb
      rw [bitPass, stopCameraM_step] at hb
      simp [postPassStep] at hb
  · constructor
    · simp [okFrom, isLiveDelivery, isCbTrue, isFrameFinal, isApiPass]
    · intro hb
      simp [bitPass, postPassStep] at hb
  · constructor
    · refine okFrom_no_trigger _ _ _ (fun x hx => ?_) en
      rcases List.mem_append.mp hx with hx1 | hx1
      · obtain ⟨id, rfl⟩ := stopCameraM_snd _ x hx1; rfl
      · simp only [List.mem_singleton] at hx1; subst hx1; rfl
    · intro hb
      simp [bitPass, postPassStep] at hb

theorem pairA_startCameraSyncM (c : Ctx) (s : WState) (p : CamPurpose)
    (renv : RecEnv) (en : Bool) :
    okFrom isLiveDelivery isApiPass en (startCameraSyncM c s p renv).2 = true ∧
    (bitPass (startCameraSyncM c s p renv).1 = true →
      bitPass s = true ∨ p = CamPurpose.finalCapture) := by
  unfold startCameraSyncM
  split_ifs with h1 h2 h3 h4
  · exact ⟨rfl, fun h => Or.inl h⟩
  · obtain ⟨ha, hb⟩ := pairA_startRecordingSeqM s renv en
    exact ⟨ha, fun h => Or.inl (hb h)⟩
  · exact ⟨rfl, fun _ => Or.inr h4.1⟩
  · exact ⟨rfl, fun h => Or.inl h⟩
  · refine ⟨rfl, fun hb => ?_⟩
    cases p
    · simp [bitPass, postPassStep] at hb
    · exact Or.inr rfl

theorem pairA_onstopM (c : Ctx) (s : WState) (oin : OnstopIn) (en : Bool) :
    okFrom isLiveDelivery isApiPass en (onstopM c s oin).2 = true ∧
    (bitPass (onstopM c s oin).1 = true →
      (onstopM c s oin).2.any isApiPass = true) := by
  by_cases hc : c = Ctx.login <;>
    rcases hcs : s.currentStream with _ | sid <;>
    by_cases hml : s.modelsLoaded = true <;>
    by_cases hfo : oin.frameOk = true <;>
    by_cases hsize : oin.blobSize > MAX_VIDEO_SIZE_MB * 1024 * 1024 <;>
    rcases hdec : decodeLiveness oin.parse oin.fetch with _ | b <;>
    try cases b
  all_goals
    simp [onstopM, stopCameraM, hc, hcs, hml, hfo, hsize, hdec, okFrom,
      isLiveDelivery, isCbTrue, isFrameFinal, isApiPass, bitPass, postPassStep,
      Bool.not_eq_true] at *

theorem pairA_step (c : Ctx) :
    ∀ (s : WState) (ev : Event) (s2 : WState) (outs : List Out),
      stepM c s ev = some (s2, outs) →
      okFrom isLiveDelivery isApiPass (bitPass s) outs = true ∧
      (bitPass s2 = true → bitPass s = true ∨ outs.any isApiPass = true) := by
  intro s ev s2 outs h
  rw [stepM] at h
  by_cases hu : s.unmounted = true
  · rw [if_pos hu] at h; exact Option.noConfusion h
  rw [if_neg hu] at h
  cases ev with
  | modelsOk =>
    simp only [stepCore] at h
    by_cases hp : s.modelsPending = true
    · rw [if_pos hp, Option.some.injEq, Prod.mk.injEq] at h
      obtain ⟨rfl, rfl⟩ := h
      exact ⟨rfl, fun hb => by simp [bitPass, postPassStep] at hb⟩
    · rw [if_neg hp] at h; exact Option.noConfusion h
  | modelsErr =>
    simp only [stepCore] at h
    by_cases hp : s.modelsPending = true
    · rw [if_pos hp, Option.some.injEq, Prod.mk.injEq] at h
      obtain ⟨rfl, rfl⟩ := h
      exact ⟨rfl, fun hb => by simp [bitPass, postPassStep] at hb⟩
    · rw [if_neg hp] at h; exact Option.noConfusion h
  | clickStart pp renv =>
    simp only [stepCore] at h
    by_cases hen : clickStartEnabled c s pp
    · rw [if_pos hen, Option.some.injEq] at h
      obtain ⟨ha, hb⟩ := pairA_startCameraSyncM c
        { s with error := none, recording := false, verifying := false }
        CamPurpose.videoLiveness renv (bitPass s)
      rw [h] at ha hb
      refine ⟨ha, fun h2 => ?_⟩
      rcases hb h2 with h3 | h3
      · exact Or.inl h3
      · exact absurd h3 (by simp)
    · rw [if_neg hen] at h; exact Option.noConfusion h
  | cameraOk =>
    simp only [stepCore] at h
    rcases hpc : s.pendingCamera with _ | p
    · simp only [hpc] at h; exact Option.noConfusion h
    · simp only [hpc, Option.some.injEq, Prod.mk.injEq] at h
      obtain ⟨rfl, rfl⟩ := h
      refine ⟨?_, fun hb => Or.inl hb⟩
      simp [okFrom, isLiveDelivery, isCbTrue, isFrameFinal, isApiPass]
  | cameraErr =>
    simp only [stepCore] at h
    rcases hpc : s.pendingCamera with _ | p
    · simp only [hpc] at h; exact Option.noConfusion h
    · simp only [hpc, Option.some.injEq, Prod.mk.injEq] at h
      obtain ⟨rfl, rfl⟩ := h
      exact ⟨rfl, fun hb => by simp [bitPass, postPassStep] at hb⟩
  | playOk renv =>
    simp only [stepCore] at h
    by_cases hb1 : (s.currentStream.isSome && !s.cameraActive) = true
    · rw [if_pos hb1] at h
      by_cases hlg : c = Ctx.login ∧
          s.step = LivenessStep.awaiting_camera_for_video ∧ s.recording = false
      · rw [if_pos hlg, Option.some.injEq] at h
        obtain ⟨ha, hb⟩ := pairA_startRecordingSeqM
          { s with cameraActive := true } renv (bitPass s)
        rw [h] at ha hb
        exact ⟨ha, fun h2 => Or.inl (hb h2)⟩
      · rw [if_neg hlg, Option.some.injEq, Prod.mk.injEq] at h
        obtain ⟨rfl, rfl⟩ := h
        exact ⟨rfl, fun hb => Or.inl hb⟩
    · rw [if_neg hb1] at h; exact Option.noConfusion h
  | playErr =>
    simp only [stepCore] at h
    by_cases hb1 : (s.currentStream.isSome && !s.cameraActive) = true
    · rw [if_pos hb1, Option.some.injEq] at h
      have hsnd := stopCameraM_snd { s with
        error := some ErrTag.playFailed
        step := LivenessStep.liveness_failed_or_error }
      rw [h] at hsnd
      have hstep := stopCameraM_step { s with
        error := some ErrTag.playFailed
        step := LivenessStep.liveness_failed_or_error }
      rw [h] at hstep
      have hstep2 : s2.step = LivenessStep.liveness_failed_or_error := hstep
      constructor
      · exact okFrom_no_trigger _ _ _
          (fun x hx => by obtain ⟨id, rfl⟩ := hsnd x hx; rfl) _
      · intro hb2
        have hb3 : postPassStep s2.step = true := hb2
        rw [hstep2] at hb3
        exact absurd hb3 (by simp [postPassStep])
    · rw [if_neg hb1] at h; exact Option.noConfusion h
  | timeoutFires =>
    simp only [stepCore] at h
    rw [Option.some.injEq, Prod.mk.injEq] at h
    obtain ⟨rfl, rfl⟩ := h
    exact ⟨rfl, fun hb => Or.inl hb⟩
  | onstopRuns oin =>
    simp only [stepCore] at h
    by_cases hosp : s.onstopPending = true
    · rw [if_pos hosp, Option.some.injEq] at h
      obtain ⟨ha, hb⟩ := pairA_onstopM c { s with onstopPending := false } oin
        (bitPass s)
      rw [h] at ha hb
      exact ⟨ha, fun h2 => Or.inr (hb h2)⟩
    · rw [if_neg hosp] at h; exact Option.noConfusion h
  | effectStartFinalCam =>
    simp only [stepCore] at h
    by_cases hen : s.step =
        LivenessStep.liveness_api_passed_ready_for_manual_final_capture ∧
        (c = Ctx.signup ∨ c = Ctx.adminUpdate)
    · rw [if_pos hen, Option.some.injEq] at h
      obtain ⟨ha, hb⟩ := pairA_startCameraSyncM c s CamPurpose.finalCapture
        { streamOk := true, recInitOk := true } (bitPass s)
      rw [h] at ha hb
      refine ⟨ha, fun h2 => Or.inl ?_⟩
      show postPassStep s.step = true
      rw [hen.1]
      rfl
    · rw [if_neg hen] at h; exact Option.noConfusion h
  | effectFinalActive =>
    simp only [stepCore] at h
    by_cases hen : s.cameraActive = true ∧
        s.step = LivenessStep.liveness_api_passed_awaiting_final_camera ∧
        (c = Ctx.signup ∨ c = Ctx.adminUpdate)
    · rw [if_pos hen, Option.some.injEq, Prod.mk.injEq] at h
      obtain ⟨rfl, rfl⟩ := h
      refine ⟨rfl, fun hb => Or.inl ?_⟩
      show postPassStep s.step = true
      rw [hen.2.1]
      rfl
    · rw [if_neg hen] at h; exact Option.noConfusion h
  | clickManual m =>
    simp only [stepCore] at h
    by_cases hen : clickManualEnabled c s
    · rw [if_pos hen, Option.some.injEq] at h
      have hs : bitPass s = true := by
        rcases hen.1 with h1 | h1 <;>
          (show postPassStep s.step = true; rw [h1]; rfl)
      constructor
      · rw [hs]
        exact okFrom_of_en _ _ _
      · intro _
        exact Or.inl hs
    · rw [if_neg hen] at h; exact Option.noConfusion h
  | clickRetry =>
    simp only [stepCore] at h
    by_cases hen : clickRetryEnabled s
    · rw [if_pos hen, Option.some.injEq] at h
      have h3 : (stopCameraM s).2 = outs := congrArg Prod.snd h
      have h4 : s2.step =
          (if (stopCameraM s).1.modelsLoaded = true then LivenessStep.initial
            else LivenessStep.awaiting_models) :=
        (congrArg (fun r => r.1.step) h).symm
      constructor
      · rw [← h3]
        exact okFrom_no_trigger _ _ _
          (fun x hx => by obtain ⟨id, rfl⟩ := stopCameraM_snd s x hx; rfl) _
      · intro hb
        have hb2 : postPassStep s2.step = true := hb
        rw [h4] at hb2
        split at hb2 <;> exact absurd hb2 (by simp [postPassStep])
    · rw [if_neg hen] at h; exact Option.noConfusion h
  | unmount =>
    simp only [stepCore] at h
    rw [Option.some.injEq, Prod.mk.injEq] at h
    obtain ⟨rfl, rfl⟩ := h
    constructor
    · exact okFrom_no_trigger _ _ _
        (fun x hx => by obtain ⟨id, rfl⟩ := stopCameraM_snd s x hx; rfl) _
    · intro hb
      refine Or.inl ?_
      have h2 : postPassStep (stopCameraM s).1.step = true := hb
      rw [stopCameraM_step] at h2
      exact h2

/-! ### Output shapes and result fields of the handlers -/

theorem startRecordingSeqM_snd_mem (s : WState) (renv : RecEnv) :
    ∀ x ∈ (startRecordingSeqM s renv).2,
      (∃ id, x = Out.trackStop id) ∨ x = Out.recStart ∨
        x = Out.cb none none false := by
  intro x hx
  unfold startRecordingSeqM at hx
  split_ifs at hx with h1 h2 h3
  · simp at hx
  · exact Or.inl (stopCameraM_snd _ x hx)
  · simp only [List.mem_singleton] at hx; exact Or.inr (Or.inl hx)
  · rcases List.mem_append.mp hx with hx1 | hx1
    · exact Or.inl (stopCameraM_snd _ x hx1)
    · simp only [List.mem_singleton] at hx1; exact Or.inr (Or.inr hx1)

theorem startCameraSyncM_snd_mem (c : Ctx) (s : WState) (p : CamPurpose)
    (renv : RecEnv) :
    ∀ x ∈ (startCameraSyncM c s p renv).2,
      (∃ id, x = Out.trackStop id) ∨ x = Out.recStart ∨
        x = Out.cb none none false := by
  intro x hx
  unfold startCameraSyncM at hx
  split_ifs at hx with h1 h2 h3 h4
  · simp at hx
  · exact startRecordingSeqM_snd_mem s renv x hx
  · simp at hx
  · simp at hx
  · simp at hx

theorem manualM_snd_mem (c : Ctx) (s : WState) (m : ManualIn) :
    ∀ x ∈ (manualM c s m).2,
      x = Out.frameFinalTaken ∨ (∃ d ds, x = Out.cb d ds true) ∨
        ∃ id, x = Out.trackStop id := by
  intro x hx
  unfold manualM at hx
  split_ifs at hx with h1
  · rcases List.mem_append.mp hx with hx1 | hx1
    · simp only [List.mem_cons, List.mem_singleton, List.not_mem_nil,
        or_false] at hx1
      rcases hx1 with rfl | rfl
      · exact Or.inl rfl
      · exact Or.inr (Or.inl ⟨_, _, rfl⟩)
    · exact Or.inr (Or.inr (stopCameraM_snd _ x hx1))
  · simp at hx

/-- The `onstop` handler clears the recorder state and stops the camera;
its resulting `onstopPending` is the incoming one (the event consuming the
flag resets it before the handler runs). -/
theorem onstopM_fst_fields (c : Ctx) (s : WState) (oin : OnstopIn) :
    (onstopM c s oin).1.recording = false ∧
    (onstopM c s oin).1.recorder = none ∧
    (onstopM c s oin).1.onstopPending = s.onstopPending ∧
    (onstopM c s oin).1.currentStream = none := by
  by_cases hc : c = Ctx.login <;>
    rcases hcs : s.currentStream with _ | sid <;>
    by_cases hml : s.modelsLoaded = true <;>
    by_cases hfo : oin.frameOk = true <;>
    by_cases hsize : oin.blobSize > MAX_VIDEO_SIZE_MB * 1024 * 1024 <;>
    rcases hdec : decodeLiveness oin.parse oin.fetch with _ | b <;>
    try cases b
  all_goals
    simp [onstopM, stopCameraM, hc, hcs, hml, hfo, hsize, hdec]

/-! ### Pair B: every verification request is preceded by a started
recording -/

theorem pairB_startRecordingSeqM (s : WState) (renv : RecEnv) (en : Bool) :
    okFrom isRequest isRecStart en (startRecordingSeqM s renv).2 = true ∧
    (bitRec (startRecordingSeqM s renv).1 = true →
      bitRec s = true ∨ (startRecordingSeqM s renv).2.any isRecStart = true) := by
  constructor
  · refine okFrom_no_trigger _ _ _ (fun x hx => ?_) en
    rcases startRecordingSeqM_snd_mem s renv x hx with ⟨id, rfl⟩ | rfl | rfl <;> rfl
  · unfold startRecordingSeqM
    split_ifs with h1 h2 h3
    · exact fun h => Or.inl h
    · intro h
      refine Or.inl ?_
      rcases hcs : s.currentStream with _ | sid <;>
        by_cases hrec : s.recorder = some RecorderPhase.recording <;>
        simp_all [stopCameraM, bitRec] <;> tauto
    · intro _
      exact Or.inr (by simp [isRecStart])
    · intro h
      refine Or.inl ?_
      rcases hcs : s.currentStream with _ | sid <;>
        by_cases hrec : s.recorder = some RecorderPhase.recording <;>
        simp_all [stopCameraM, bitRec] <;> tauto

theorem pairB_startCameraSyncM (c : Ctx) (s : WState) (p : CamPurpose)
    (renv : RecEnv) (en : Bool) :
    okFrom isRequest isRecStart en (startCameraSyncM c s p renv).2 = true ∧
    (bitRec (startCameraSyncM c s p renv).1 = true →
      bitRec s = true ∨
        (startCameraSyncM c s p renv).2.any isRecStart = true) := by
  constructor
  · refine okFrom_no_trigger _ _ _ (fun x hx => ?_) en
    rcases startCameraSyncM_snd_mem c s p renv x hx with ⟨id, rfl⟩ | rfl | rfl <;> rfl
  · unfold startCameraSyncM
    split_ifs with h1 h2 h3 h4
    · exact fun h => Or.inl h
    · exact (pairB_startRecordingSeqM s renv en).2
    · exact fun h => Or.inl h
    · exact fun h => Or.inl h
    · exact fun h => Or.inl h

theorem pairB_step (c : Ctx) :
    ∀ (s : WState) (ev : Event) (s2 : WState) (outs : List Out),
      stepM c s ev = some (s2, outs) →
      okFrom isRequest isRecStart (bitRec s) outs = true ∧
      (bitRec s2 = true → bitRec s = true ∨ outs.any isRecStart = true) := by
  intro s ev s2 outs h
  rw [stepM] at h
  by_cases hu : s.unmounted = true
  · rw [if_pos hu] at h; exact Option.noConfusion h
  rw [if_neg hu] at h
  cases ev with
  | modelsOk =>
    simp only [stepCore] at h
    by_cases hp : s.modelsPending = true
    · rw [if_pos hp, Option.some.injEq, Prod.mk.injEq] at h
      obtain ⟨rfl, rfl⟩ := h
      exact ⟨rfl, fun hb => Or.inl hb⟩
    · rw [if_neg hp] at h; exact Option.noConfusion h
  | modelsErr =>
    simp only [stepCore] at h
    by_cases hp : s.modelsPending = true
    · rw [if_pos hp, Option.some.injEq, Prod.mk.injEq] at h
      obtain ⟨rfl, rfl⟩ := h
      exact ⟨rfl, fun hb => Or.inl hb⟩
    · rw [if_neg hp] at h; exact Option.noConfusion h
  | clickStart pp renv =>
    simp only [stepCore] at h
    by_cases hen : clickStartEnabled c s pp
    · rw [if_pos hen, Option.some.injEq] at h
      obtain ⟨ha, hb⟩ := pairB_startCameraSyncM c
        { s with error := none, recording := false, verifying := false }
        CamPurpose.videoLiveness renv (bitRec s)
      rw [h] at ha hb
      refine ⟨ha, fun h2 => ?_⟩
      rcases hb h2 with h3 | h3
      · refine Or.inl ?_
        have h4 : (s.onstopPending || s.recorder.isSome || false) = true := h3
        have h5 : s.recording = false := hen.2.2.2.2.1
        show (s.onstopPending || s.recorder.isSome || s.recording) = true
        rw [h5]
        exact h4
      · exact Or.inr h3
    · rw [if_neg hen] at h; exact Option.noConfusion h
  | cameraOk =>
    simp only [stepCore] at h
    rcases hpc : s.pendingCamera with _ | p
    · simp only [hpc] at h; exact Option.noConfusion h
    · simp only [hpc, Option.some.injEq, Prod.mk.injEq] at h
      obtain ⟨rfl, rfl⟩ := h
      refine ⟨?_, fun hb => Or.inl hb⟩
      simp [okFrom, isRequest, isRecStart]
  | cameraErr =>
    simp only [stepCore] at h
    rcases hpc : s.pendingCamera with _ | p
    · simp only [hpc] at h; exact Option.noConfusion h
    · simp only [hpc, Option.some.injEq, Prod.mk.injEq] at h
      obtain ⟨rfl, rfl⟩ := h
      exact ⟨rfl, fun hb => Or.inl hb⟩
  | playOk renv =>
    simp only [stepCore] at h
    by_cases hb1 : (s.currentStream.isSome && !s.cameraActive) = true
    · rw [if_pos hb1] at h
      by_cases hlg : c = Ctx.login ∧
          s.step = LivenessStep.awaiting_camera_for_video ∧ s.recording = false
      · rw [if_pos hlg, Option.some.injEq] at h
        obtain ⟨ha, hb⟩ := pairB_startRecordingSeqM
          { s with cameraActive := true } renv (bitRec s)
        rw [h] at ha hb
        exact ⟨ha, hb⟩
      · rw [if_neg hlg, Option.some.injEq, Prod.mk.injEq] at h
        obtain ⟨rfl, rfl⟩ := h
        exact ⟨rfl, fun hb => Or.inl hb⟩
    · rw [if_neg hb1] at h; exact Option.noConfusion h
  | playErr =>
    simp only [stepCore] at h
    by_cases hb1 : (s.currentStream.isSome && !s.cameraActive) = true
    · rw [if_pos hb1, Option.some.injEq] at h
      have hsnd := stopCameraM_snd { s with
        error := some ErrTag.playFailed
        step := LivenessStep.liveness_failed_or_error }
      rw [h] at hsnd
      constructor
      · exact okFrom_no_trigger _ _ _
          (fun x hx => by obtain ⟨id, rfl⟩ := hsnd x hx; rfl) _
      · intro hb2
        refine Or.inl ?_
        have h3 : s2.onstopPending =
            (s.onstopPending ||
              decide (s.recorder = some RecorderPhase.recording)) :=
          congrArg (fun r => r.1.onstopPending) h.symm
        have h4 : s2.recorder = none :=
          congrArg (fun r => r.1.recorder) h.symm
        have h5 : s2.recording = s.recording :=
          congrArg (fun r => r.1.recording) h.symm
        have hb3 : (s2.onstopPending || s2.recorder.isSome || s2.recording)
            = true := hb2
        rw [h3, h4, h5] at hb3
        clear h hb2
        show (s.onstopPending || s.recorder.isSome || s.recording) = true
        by_cases hrec : s.recorder = some RecorderPhase.recording <;>
          simp_all <;> tauto
    · rw [if_neg hb1] at h; exact Option.noConfusion h
  | timeoutFires =>
    simp only [stepCore] at h
    rw [Option.some.injEq, Prod.mk.injEq] at h
    obtain ⟨rfl, rfl⟩ := h
    refine ⟨rfl, fun hb => Or.inl ?_⟩
    have hb2 : ((s.onstopPending || (timerCallback s.recorder).2) ||
        (timerCallback s.recorder).1.isSome || s.recording) = true := hb
    show (s.onstopPending || s.recorder.isSome || s.recording) = true
    rcases hrec : s.recorder with _ | ph
    · simpa [timerCallback, hrec] using hb2
    · simp [hrec]
  | onstopRuns oin =>
    simp only [stepCore] at h
    by_cases hosp : s.onstopPending = true
    · rw [if_pos hosp, Option.some.injEq] at h
      constructor
      · have hen2 : bitRec s = true := by
          show (s.onstopPending || s.recorder.isSome || s.recording) = true
          rw [hosp]
          rfl
        rw [hen2]
        exact okFrom_of_en _ _ _
      · intro hb2
        obtain ⟨hf1, hf2, hf3, hf4⟩ :=
          onstopM_fst_fields c { s with onstopPending := false } oin
        rw [h] at hf1 hf2 hf3
        have hb3 : (s2.onstopPending || s2.recorder.isSome || s2.recording)
            = true := hb2
        have hf1b : s2.recording = false := hf1
        have hf2b : s2.recorder = none := hf2
        have hf3b : s2.onstopPending = false := hf3
        rw [hf1b, hf2b, hf3b] at hb3
        simp at hb3
    · rw [if_neg hosp] at h; exact Option.noConfusion h
  | effectStartFinalCam =>
    simp only [stepCore] at h
    by_cases hen : s.step =
        LivenessStep.liveness_api_passed_ready_for_manual_final_capture ∧
        (c = Ctx.signup ∨ c = Ctx.adminUpdate)
    · rw [if_pos hen, Option.some.injEq] at h
      obtain ⟨ha, hb⟩ := pairB_startCameraSyncM c s CamPurpose.finalCapture
        { streamOk := true, recInitOk := true } (bitRec s)
      rw [h] at ha hb
      exact ⟨ha, hb⟩
    · rw [if_neg hen] at h; exact Option.noConfusion h
  | effectFinalActive =>
    simp only [stepCore] at h
    by_cases hen : s.cameraActive = true ∧
        s.step = LivenessStep.liveness_api_passed_awaiting_final_camera ∧
        (c = Ctx.signup ∨ c = Ctx.adminUpdate)
    · rw [if_pos hen, Option.some.injEq, Prod.mk.injEq] at h
      obtain ⟨rfl, rfl⟩ := h
      exact ⟨rfl, fun hb => Or.inl hb⟩
    · rw [if_neg hen] at h; exact Option.noConfusion h
  | clickManual m =>
    simp only [stepCore] at h
    by_cases hen : clickManualEnabled c s
    · rw [if_pos hen, Option.some.injEq] at h
      constructor
      · have hmem := manualM_snd_mem c s m
        rw [h] at hmem
        refine okFrom_no_trigger _ _ _ (fun x hx => ?_) _
        rcases hmem x hx with rfl | ⟨d, ds, rfl⟩ | ⟨id, rfl⟩ <;> rfl
      · intro hb2
        refine Or.inl ?_
        unfold manualM at h
        split_ifs at h with hg
        · have h3 : s2.onstopPending =
              (s.onstopPending ||
                decide (s.recorder = some RecorderPhase.recording)) :=
            congrArg (fun r => r.1.onstopPending) h.symm
          have h4 : s2.recorder = none :=
            congrArg (fun r => r.1.recorder) h.symm
          have h5 : s2.recording = s.recording :=
            congrArg (fun r => r.1.recording) h.symm
          have hb3 : (s2.onstopPending || s2.recorder.isSome || s2.recording)
              = true := hb2
          rw [h3, h4, h5] at hb3
          clear h hb2
          show (s.onstopPending || s.recorder.isSome || s.recording) = true
          by_cases hrec : s.recorder = some RecorderPhase.recording <;>
            simp_all <;> tauto
        · have h3 : s2 = s := congrArg Prod.fst h.symm
          rw [h3] at hb2
          exact hb2
    · rw [if_neg hen] at h; exact Option.noConfusion h
  | clickRetry =>
    simp only [stepCore] at h
    by_cases hen : clickRetryEnabled s
    · rw [if_pos hen, Option.some.injEq] at h
      have h3 : (stopCameraM s).2 = outs := congrArg Prod.snd h
      constructor
      · rw [← h3]
        exact okFrom_no_trigger _ _ _
          (fun x hx => by obtain ⟨id, rfl⟩ := stopCameraM_snd s x hx; rfl) _
      · intro hb2
        refine Or.inl ?_
        have h4 : s2.onstopPending =
            (s.onstopPending ||
              decide (s.recorder = some RecorderPhase.recording)) :=
          congrArg (fun r => r.1.onstopPending) h.symm
        have h5 : s2.recorder = none :=
          congrArg (fun r => r.1.recorder) h.symm
        have h6 : s2.recording = false :=
          congrArg (fun r => r.1.recording) h.symm
        have hb3 : (s2.onstopPending || s2.recorder.isSome || s2.recording)
            = true := hb2
        rw [h4, h5, h6] at hb3
        clear h hb2
        show (s.onstopPending || s.recorder.isSome || s.recording) = true
        by_cases hrec : s.recorder = some RecorderPhase.recording <;>
          simp_all <;> tauto
    · rw [if_neg hen] at h; exact Option.noConfusion h
  | unmount =>
    simp only [stepCore] at h
    rw [Option.some.injEq, Prod.mk.injEq] at h
    obtain ⟨rfl, rfl⟩ := h
    constructor
    · exact okFrom_no_trigger _ _ _
        (fun x hx => by obtain ⟨id, rfl⟩ := stopCameraM_snd s x hx; rfl) _
    · intro hb2
      refine Or.inl ?_
      have hb3 : ((s.onstopPending ||
          decide (s.recorder = some RecorderPhase.recording)) ||
          (none : Option RecorderPhase).isSome || s.recording) = true := hb2
      show (s.onstopPending || s.recorder.isSome || s.recording) = true
      by_cases hrec : s.recorder = some RecorderPhase.recording <;>
        simp_all <;> tauto

/-! ### Pair C: every recording start is preceded by a camera
acquisition -/

theorem pairC_onstopM (c : Ctx) (s : WState) (oin : OnstopIn) (en : Bool) :
    okFrom isRecStart isAcquire en (onstopM c s oin).2 = true := by
  by_cases hc : c = Ctx.login <;>
    rcases hcs : s.currentStream with _ | sid <;>
    by_cases hml : s.modelsLoaded = true <;>
    by_cases hfo : oin.frameOk = true <;>
    by_cases hsize : oin.blobSize > MAX_VIDEO_SIZE_MB * 1024 * 1024 <;>
    rcases hdec : decodeLiveness oin.parse oin.fetch with _ | b <;>
    try cases b
  all_goals
    simp [onstopM, stopCameraM, hc, hcs, hml, hfo, hsize, hdec, okFrom,
      isRecStart, isAcquire]

theorem startRecordingSeqM_fst_cam (s : WState) (renv : RecEnv) :
    bitCam (startRecordingSeqM s renv).1 = true → bitCam s = true := by
  unfold startRecordingSeqM
  split_ifs with h1 h2 h3
  · exact id
  · intro hb
    exact absurd hb (by simp [bitCam, stopCameraM])
  · exact id
  · intro hb
    exact absurd hb (by simp [bitCam, stopCameraM])

theorem pairC_startCameraSyncM (c : Ctx) (s : WState) (p : CamPurpose)
    (renv : RecEnv) :
    okFrom isRecStart isAcquire (bitCam s) (startCameraSyncM c s p renv).2
      = true ∧
    (bitCam (startCameraSyncM c s p renv).1 = true →
      bitCam s = true ∨
        (startCameraSyncM c s p renv).2.any isAcquire = true) := by
  unfold startCameraSyncM
  split_ifs with h1 h2 h3 h4
  · exact ⟨rfl, fun h => Or.inl h⟩
  · have hcam : bitCam s = true := ((Bool.and_eq_true _ _).mp h2).1
    constructor
    · rw [hcam]
      exact okFrom_of_en _ _ _
    · exact fun h => Or.inl (startRecordingSeqM_fst_cam _ renv h)
  · exact ⟨rfl, fun h => Or.inl h⟩
  · exact ⟨rfl, fun h => Or.inl h⟩
  · exact ⟨rfl, fun h => Or.inl h⟩

theorem pairC_step (c : Ctx) :
    ∀ (s : WState) (ev : Event) (s2 : WState) (outs : List Out),
      stepM c s ev = some (s2, outs) →
      okFrom isRecStart isAcquire (bitCam s) outs = true ∧
      (bitCam s2 = true → bitCam s = true ∨ outs.any isAcquire = true) := by
  intro s ev s2 outs h
  rw [stepM] at h
  by_cases hu : s.unmounted = true
  · rw [if_pos hu] at h; exact Option.noConfusion h
  rw [if_neg hu] at h
  cases ev with
  | modelsOk =>
    simp only [stepCore] at h
    by_cases hp : s.modelsPending = true
    · rw [if_pos hp, Option.some.injEq, Prod.mk.injEq] at h
      obtain ⟨rfl, rfl⟩ := h
      exact ⟨rfl, fun hb => Or.inl hb⟩
    · rw [if_neg hp] at h; exact Option.noConfusion h
  | modelsErr =>
    simp only [stepCore] at h
    by_cases hp : s.modelsPending = true
    · rw [if_pos hp, Option.some.injEq, Prod.mk.injEq] at h
      obtain ⟨rfl, rfl⟩ := h
      exact ⟨rfl, fun hb => Or.inl hb⟩
    · rw [if_neg hp] at h; exact Option.noConfusion h
  | clickStart pp renv =>
    simp only [stepCore] at h
    by_cases hen : clickStartEnabled c s pp
    · rw [if_pos hen, Option.some.injEq] at h
      obtain ⟨ha, hb⟩ := pairC_startCameraSyncM c
        { s with error := none, recording := false, verifying := false }
        CamPurpose.videoLiveness renv
      rw [h] at ha hb
      exact ⟨ha, hb⟩
    · rw [if_neg hen] at h; exact Option.noConfusion h
  | cameraOk =>
    simp only [stepCore] at h
    rcases hpc : s.pendingCamera with _ | p
    · simp only [hpc] at h; exact Option.noConfusion h
    · simp only [hpc, Option.some.injEq, Prod.mk.injEq] at h
      obtain ⟨rfl, rfl⟩ := h
      refine ⟨?_, fun hb => Or.inr (by simp [isAcquire])⟩
      simp [okFrom, isRecStart, isAcquire]
  | cameraErr =>
    simp only [stepCore] at h
    rcases hpc : s.pendingCamera with _ | p
    · simp only [hpc] at h; exact Option.noConfusion h
    · simp only [hpc, Option.some.injEq, Prod.mk.injEq] at h
      obtain ⟨rfl, rfl⟩ := h
      refine ⟨rfl, fun hb => ?_⟩
      exact absurd hb (by simp [bitCam])
  | playOk renv =>
    simp only [stepCore] at h
    by_cases hb1 : (s.currentStream.isSome && !s.cameraActive) = true
    · have hcam : bitCam s = true := ((Bool.and_eq_true _ _).mp hb1).1
      rw [if_pos hb1] at h
      by_cases hlg : c = Ctx.login ∧
          s.step = LivenessStep.awaiting_camera_for_video ∧ s.recording = false
      · rw [if_pos hlg, Option.some.injEq] at h
        have h5 : (startRecordingSeqM { s with cameraActive := true } renv).2
            = outs := congrArg Prod.snd h
        have h6 : (startRecordingSeqM { s with cameraActive := true } renv).1
            = s2 := congrArg Prod.fst h
        constructor
        · rw [hcam, ← h5]
          exact okFrom_of_en _ _ _
        · intro hb2
          refine Or.inl ?_
          exact startRecordingSeqM_fst_cam { s with cameraActive := true }
            renv (by rw [h6]; exact hb2)
      · rw [if_neg hlg, Option.some.injEq, Prod.mk.injEq] at h
        obtain ⟨rfl, rfl⟩ := h
        exact ⟨rfl, fun hb => Or.inl hb⟩
    · rw [if_neg hb1] at h; exact Option.noConfusion h
  | playErr =>
    simp only [stepCore] at h
    by_cases hb1 : (s.currentStream.isSome && !s.cameraActive) = true
    · rw [if_pos hb1, Option.some.injEq] at h
      have hsnd := stopCameraM_snd { s with
        error := some ErrTag.playFailed
        step := LivenessStep.liveness_failed_or_error }
      rw [h] at hsnd
      refine ⟨okFrom_no_trigger _ _ _
        (fun x hx => by obtain ⟨id, rfl⟩ := hsnd x hx; rfl) _, fun hb2 => ?_⟩
      have h3 : s2.currentStream = none :=
        congrArg (fun r => r.1.currentStream) h.symm
      have hb3 : s2.currentStream.isSome = true := hb2
      rw [h3] at hb3
      exact absurd hb3 (by simp)
    · rw [if_neg hb1] at h; exact Option.noConfusion h
  | timeoutFires =>
    simp only [stepCore] at h
    rw [Option.some.injEq, Prod.mk.injEq] at h
    obtain ⟨rfl, rfl⟩ := h
    exact ⟨rfl, fun hb => Or.inl hb⟩
  | onstopRuns oin =>
    simp only [stepCore] at h
    by_cases hosp : s.onstopPending = true
    · rw [if_pos hosp, Option.some.injEq] at h
      have h5 : (onstopM c { s with onstopPending := false } oin).2 = outs :=
        congrArg Prod.snd h
      constructor
      · rw [← h5]
        exact pairC_onstopM c { s with onstopPending := false } oin (bitCam s)
      · intro hb2
        obtain ⟨hf1, hf2, hf3, hf4⟩ :=
          onstopM_fst_fields c { s with onstopPending := false } oin
        rw [h] at hf4
        have hf4b : s2.currentStream = none := hf4
        have hb3 : s2.currentStream.isSome = true := hb2
        rw [hf4b] at hb3
        exact absurd hb3 (by simp)
    · rw [if_neg hosp] at h; exact Option.noConfusion h
  | effectStartFinalCam =>
    simp only [stepCore] at h
    by_cases hen : s.step =
        LivenessStep.liveness_api_passed_ready_for_manual_final_capture ∧
        (c = Ctx.signup ∨ c = Ctx.adminUpdate)
    · rw [if_pos hen, Option.some.injEq] at h
      obtain ⟨ha, hb⟩ := pairC_startCameraSyncM c s CamPurpose.finalCapture
        { streamOk := true, recInitOk := true }
      rw [h] at ha hb
      exact ⟨ha, hb⟩
    · rw [if_neg hen] at h; exact Option.noConfusion h
  | effectFinalActive =>
    simp only [stepCore] at h
    by_cases hen : s.cameraActive = true ∧
        s.step = LivenessStep.liveness_api_passed_awaiting_final_camera ∧
        (c = Ctx.signup ∨ c = Ctx.adminUpdate)
    · rw [if_pos hen, Option.some.injEq, Prod.mk.injEq] at h
      obtain ⟨rfl, rfl⟩ := h
      exact ⟨rfl, fun hb => Or.inl hb⟩
    · rw [if_neg hen] at h; exact Option.noConfusion h
  | clickManual m =>
    simp only [stepCore] at h
    by_cases hen : clickManualEnabled c s
    · rw [if_pos hen, Option.some.injEq] at h
      constructor
      · have hmem := manualM_snd_mem c s m
        rw [h] at hmem
        refine okFrom_no_trigger _ _ _ (fun x hx => ?_) _
        rcases hmem x hx with rfl | ⟨d, ds, rfl⟩ | ⟨id, rfl⟩ <;> rfl
      · intro hb2
        unfold manualM at h
        split_ifs at h with hg
        · have h3 : s2.currentStream = none :=
            congrArg (fun r => r.1.currentStream) h.symm
          have hb3 : s2.currentStream.isSome = true := hb2
          rw [h3] at hb3
          exact absurd hb3 (by simp)
        · have h3 : s2 = s := congrArg Prod.fst h.symm
          rw [h3] at hb2
          exact Or.inl hb2
    · rw [if_neg hen] at h; exact Option.noConfusion h
  | clickRetry =>
    simp only [stepCore] at h
    by_cases hen : clickRetryEnabled s
    · rw [if_pos hen, Option.some.injEq] at h
      have h3 : (stopCameraM s).2 = outs := congrArg Prod.snd h
      constructor
      · rw [← h3]
        exact okFrom_no_trigger _ _ _
          (fun x hx => by obtain ⟨id, rfl⟩ := stopCameraM_snd s x hx; rfl) _
      · intro hb2
        have h4 : s2.currentStream = none :=
          congrArg (fun r => r.1.currentStream) h.symm
        have hb3 : s2.currentStream.isSome = true := hb2
        rw [h4] at hb3
        exact absurd hb3 (by simp)
    · rw [if_neg hen] at h; exact Option.noConfusion h
  | unmount =>
    simp only [stepCore] at h
    rw [Option.some.injEq, Prod.mk.injEq] at h
    obtain ⟨rfl, rfl⟩ := h
    constructor
    · exact okFrom_no_trigger _ _ _
        (fun x hx => by obtain ⟨id, rfl⟩ := stopCameraM_snd s x hx; rfl) _
    · intro hb2
      have hb3 : (none : Option Nat).isSome = true := hb2
      exact absurd hb3 (by simp)

/-- Main trace lemma: if every single step respects a guarded pair
(`hstep`), so does every execution. -/
theorem exec_okFrom (c : Ctx) (t e : Out → Bool) (bit : WState → Bool)
    (hstep : ∀ s ev s2 outs, stepM c s ev = some (s2, outs) →
      okFrom t e (bit s) outs = true ∧
      (bit s2 = true → bit s = true ∨ outs.any e = true)) :
    ∀ (es : List Event) (s s2 : WState) (outs : List Out),
      exec c s es = some (s2, outs) →
      okFrom t e (bit s) outs = true ∧
      (bit s2 = true → bit s = true ∨ outs.any e = true) := by
  intro es
  induction es with
  | nil =>
    intro s s2 outs h
    simp only [exec, Option.some.injEq, Prod.mk.injEq] at h
    obtain ⟨rfl, rfl⟩ := h
    exact ⟨rfl, fun hb => Or.inl hb⟩
  | cons ev es ih =>
    intro s s2 outs h
    simp only [exec, Option.bind_eq_some, Option.map_eq_some'] at h
    obtain ⟨⟨s1, o1⟩, h1, ⟨s3, o2⟩, h2, h3⟩ := h
    cases h3
    obtain ⟨hok1, hbit1⟩ := hstep s ev s1 o1 h1
    obtain ⟨hok2, hbit2⟩ := ih s1 s3 o2 h2
    constructor
    · rw [okFrom_append, Bool.and_eq_true]
      refine ⟨hok1, ?_⟩
      cases hb1 : bit s1 with
      | true =>
        rcases hbit1 hb1 with h4 | h4
        · rw [h4]; exact okFrom_of_en t e o2
        · have h5 : (bit s || o1.any e) = true := by simp [h4]
          rw [h5]; exact okFrom_of_en t e o2
      | false =>
        rw [hb1] at hok2
        exact okFrom_of_false t e o2 _ hok2
    · intro hb2
      rcases hbit2 hb2 with h4 | h4
      · rcases hbit1 h4 with h5 | h5
        · exact Or.inl h5
        · exact Or.inr (by simp [List.any_append, h5])
      · exact Or.inr (by simp [List.any_append, h4])

/-! ## Claim theorems: the onstop handler -/

/-- The two steps entered by the success branch of the `onstop` handler
(face-capture.tsx lines 233-242). -/
def livenessPass : LivenessStep → Bool
  | LivenessStep.liveness_api_passed_awaiting_final_camera => true
  | LivenessStep.liveness_api_passed_ready_for_manual_final_capture => true
  | _ => false

/-- Claim C1.  The liveness check passes (the `onstop` handler reaches its
success branch) if and only if the POST returned an ok HTTP response whose
JSON body's `response` field is a string that parses as JSON, whose own
`response` field is again a string parsing as JSON, and whose
`isLivePerson` field is exactly the boolean `true`; every other outcome
takes the failure branch.  The hypothesis restricts to recordings that do
not exceed the size limit, where the POST is issued at all. -/
theorem c1_liveness_pass_iff (c : Ctx) (s : WState) (oin : OnstopIn)
    (hsize : oin.blobSize ≤ MAX_VIDEO_SIZE_MB * 1024 * 1024) :
    livenessPass (onstopM c s oin).1.step = true ↔
      ∃ body s1 j1 s2 j2,
        oin.fetch = FetchOutcome.http true (some body) ∧
        getField body "response" = JsAccess.val (Json.str s1) ∧
        oin.parse s1 = some j1 ∧
        getField j1 "response" = JsAccess.val (Json.str s2) ∧
        oin.parse s2 = some j2 ∧
        getField j2 "isLivePerson" = JsAccess.val (Json.bool true) := by
  rw [← decodeLiveness_eq_some_true_iff oin.parse oin.fetch]
  have hsize2 : ¬oin.blobSize > MAX_VIDEO_SIZE_MB * 1024 * 1024 := by omega
  by_cases hc : c = Ctx.login <;>
    rcases hcs : s.currentStream with _ | sid <;>
    by_cases hml : s.modelsLoaded = true <;>
    by_cases hfo : oin.frameOk = true <;>
    rcases hdec : decodeLiveness oin.parse oin.fetch with _ | b <;>
    try cases b
  all_goals
    simp [onstopM, stopCameraM, hc, hcs, hml, hfo, hsize2, hdec, livenessPass]

/-- Claim C3.  Whenever the verification request fails — non-ok HTTP
status, a body that cannot be parsed as the expected doubly-nested JSON, or
a thrown fetch (all the cases with `decodeLiveness ... = none`) — the
handler stores a non-null error, moves to `liveness_failed_or_error`, and
the only `onFaceCaptured` call it makes is `(null, null, false)`. -/
theorem c3_api_failure_behaviour (c : Ctx) (s : WState) (oin : OnstopIn)
    (hsize : oin.blobSize ≤ MAX_VIDEO_SIZE_MB * 1024 * 1024)
    (hfail : decodeLiveness oin.parse oin.fetch = none) :
    (onstopM c s oin).1.error = some ErrTag.apiFailure ∧
    (onstopM c s oin).1.step = LivenessStep.liveness_failed_or_error ∧
    (onstopM c s oin).2.filter isCb = [Out.cb none none false] := by
  have hsize2 : ¬oin.blobSize > MAX_VIDEO_SIZE_MB * 1024 * 1024 := by omega
  by_cases hc : c = Ctx.login <;>
    rcases hcs : s.currentStream with _ | sid <;>
    by_cases hml : s.modelsLoaded = true <;>
    by_cases hfo : oin.frameOk = true
  all_goals
    simp [onstopM, stopCameraM, hc, hcs, hml, hfo, hsize2, hfail, isCb,
      List.filter]

/-- Claim C9.  If the recorded blob exceeds
`MAX_VIDEO_SIZE_MB = 6` megabytes, no request is sent at all, an error is
stored, `onFaceCaptured(null, null, false)` is the only callback, the step
becomes `liveness_failed_or_error` and the verifying flag ends up
cleared. -/
theorem c9_oversized_video (c : Ctx) (s : WState) (oin : OnstopIn)
    (hsize : oin.blobSize > MAX_VIDEO_SIZE_MB * 1024 * 1024) :
    (onstopM c s oin).1.error = some ErrTag.videoTooBig ∧
    (onstopM c s oin).1.step = LivenessStep.liveness_failed_or_error ∧
    (onstopM c s oin).1.verifying = false ∧
    (onstopM c s oin).2.filter isCb = [Out.cb none none false] ∧
    Out.request ∉ (onstopM c s oin).2 := by
  by_cases hc : c = Ctx.login <;>
    rcases hcs : s.currentStream with _ | sid <;>
    by_cases hml : s.modelsLoaded = true <;>
    by_cases hfo : oin.frameOk = true
  all_goals
    simp [onstopM, stopCameraM, hc, hcs, hml, hfo, hsize, isCb, List.filter]

/-- Claim C10.  When `handleManualFinalCapture` runs with its preconditions
met but the face detection finds no face (or throws), the widget still
calls `onFaceCaptured(dataUrl, null, true)` with the captured image and the
liveness flag `true`, stops the camera, and resets the step to
`initial`. -/
theorem c10_manual_capture_null_descriptor (c : Ctx) (s : WState)
    (m : ManualIn) (hr : m.refsOk = true) (hcs : s.currentStream.isSome = true)
    (hca : s.cameraActive = true)
    (hst : s.step = LivenessStep.final_capture_active)
    (hctx : c = Ctx.signup ∨ c = Ctx.adminUpdate)
    (hdet : m.detection = none) :
    (manualM c s m).2.filter isCb = [Out.cb (some m.frameData) none true] ∧
    (manualM c s m).1.step = LivenessStep.initial ∧
    (manualM c s m).1.currentStream = none ∧
    (manualM c s m).1.cameraActive = false := by
  rcases hcs2 : s.currentStream with _ | sid
  · rw [hcs2] at hcs; simp at hcs
  · simp [manualM, stopCameraM, hr, hcs2, hca, hst, hctx, hdet, isCb,
      List.filter]

/-- Claim C8.  Every descriptor delivered through `onFaceCaptured` — from
the login frame in the `onstop` handler or from the manual final capture —
is either `null` or exactly `Array.from(d.descriptor)` of the single-face
detection `d` computed on the captured canvas (the `detection` environment
input); it is never fabricated from anything else. -/
theorem c8_descriptor_provenance :
    (∀ (c : Ctx) (s : WState) (oin : OnstopIn) (d : Option String)
        (ds : Option (List Int)) (l : Bool),
      Out.cb d ds l ∈ (onstopM c s oin).2 →
      ds = none ∨ ds = oin.detection.map (fun det => det.descriptor)) ∧
    (∀ (c : Ctx) (s : WState) (m : ManualIn) (d : Option String)
        (ds : Option (List Int)) (l : Bool),
      Out.cb d ds l ∈ (manualM c s m).2 →
      ds = none ∨ ds = m.detection.map (fun det => det.descriptor)) := by
  constructor
  · intro c s oin d ds l hmem
    by_cases hc : c = Ctx.login <;>
      rcases hcs : s.currentStream with _ | sid <;>
      by_cases hml : s.modelsLoaded = true <;>
      by_cases hfo : oin.frameOk = true <;>
      by_cases hsize : oin.blobSize > MAX_VIDEO_SIZE_MB * 1024 * 1024 <;>
      rcases hdec : decodeLiveness oin.parse oin.fetch with _ | b <;>
      try cases b
    all_goals
      simp [onstopM, stopCameraM, hc, hcs, hml, hfo, hsize, hdec] at hmem
    all_goals try exact Or.inl hmem.2.1
    all_goals try (exact Or.inr hmem.2.1)
    all_goals tauto
  · intro c s m d ds l hmem
    by_cases hg : m.refsOk = true ∧ s.currentStream.isSome = true ∧
        s.cameraActive = true ∧ s.step = LivenessStep.final_capture_active ∧
        (c = Ctx.signup ∨ c = Ctx.adminUpdate)
    · rcases hcs : s.currentStream with _ | sid
      · rw [hcs] at hg; simp at hg
      · simp [manualM, stopCameraM, hg, hcs] at hmem
        exact Or.inr hmem.2.1
    · simp [manualM, hg] at hmem

/-- Claim C6.  The recording is timed: the timer scheduled after
`MediaRecorder.start()` is delivered `VIDEO_RECORDING_DURATION_MS = 5000`
milliseconds later, its callback calls `stop()` exactly when the recorder
is still in the `recording` state, and after the callback the recorder is
never still recording — so a session that started at `t0` is stopped no
later than `t0 + 5000` ms. -/
theorem c6_timed_recording_stop :
    VIDEO_RECORDING_DURATION_MS = 5000 ∧
    (∀ t0, timerDeliveryTime t0 = t0 + 5000) ∧
    (∀ r, (timerCallback r).2 = true ↔ r = some RecorderPhase.recording) ∧
    (∀ r, (timerCallback r).1 ≠ some RecorderPhase.recording) := by
  refine ⟨rfl, fun t0 => rfl, fun r => ?_, fun r => ?_⟩
  · rcases r with _ | ph
    · simp [timerCallback]
    · cases ph <;> simp [timerCallback]
  · rcases r with _ | ph
    · simp [timerCallback]
    · cases ph <;> simp [timerCallback]

/-! ## Claim theorems: the form handlers (C5) -/

/-- Counterexample to claim C5 as stated.
`FaceCapture` reports a failed liveness check as
`onFaceCaptured(null, null, false)`; on that input (with name and email
filled in) `SignupForm.handleFaceVerifiedAndCaptured` returns without
calling `signup` — but also without showing any toast
(signup-form.tsx lines 32-37 return silently) — refuting the claim's
"otherwise the attempt is rejected with a toast". -/
theorem c5_counterexample :
    (signupHandleFace "a" "b" none none (some false)).call = none ∧
    (signupHandleFace "a" "b" none none (some false)).toastShown = false := by
  constructor <;> rfl

/-- Claim C5 as amended.  `LoginForm` calls `loginWithFace` only when the
descriptor is non-null, and rejects with a toast otherwise; `SignupForm`
calls `signup` only when the liveness flag is `true` and the data URL,
descriptor, name and email are all present (non-null / non-empty), and
otherwise never calls it — showing a toast except when the liveness flag
is exactly `false`, where the rejection is silent. -/
theorem c5_auth_guards :
    (∀ (al : Bool) (uc : Nat) (du : Option String) (ds : Option (List Int)),
      (loginHandleFace al uc du ds).call.isSome = true → ds.isSome = true) ∧
    (∀ (al : Bool) (uc : Nat) (du : Option String) (ds : Option (List Int)),
      (loginHandleFace al uc du ds).call = none →
      (loginHandleFace al uc du ds).toastShown = true) ∧
    (∀ (n e : String) (du : Option String) (ds : Option (List Int))
        (lp : Option Bool),
      (signupHandleFace n e du ds lp).call.isSome = true →
      n ≠ "" ∧ e ≠ "" ∧ strFalsy du = false ∧ ds.isSome = true ∧
        lp = some true) ∧
    (∀ (n e : String) (du : Option String) (ds : Option (List Int))
        (lp : Option Bool),
      (signupHandleFace n e du ds lp).call = none →
      (signupHandleFace n e du ds lp).toastShown = true ∨ lp = some false) := by
  refine ⟨?_, ?_, ?_, ?_⟩
  · intro al uc du ds h
    unfold loginHandleFace at h
    split_ifs at h
    · simp at h
    · simp at h
    · rcases ds with _ | d
      · simp at h
      · rfl
  · intro al uc du ds h
    unfold loginHandleFace at h ⊢
    split_ifs at h ⊢ with h1 h2
    · rfl
    · rfl
    · rcases ds with _ | d
      · rfl
      · simp at h
  · intro n e du ds lp h
    unfold signupHandleFace at h
    split_ifs at h with h1 h2 h3 h4
    · simp at h
    · simp at h
    · simp at h
    · simp at h
    · push_neg at h1 h4
      have hlp : lp = some true := by
        rcases lp with _ | b
        · exact absurd rfl h4.1
        · cases b
          · exact absurd rfl h2
          · rfl
      refine ⟨h1.1, h1.2, ?_, ?_, hlp⟩
      · rcases hdu : strFalsy du with _ | _
        · rfl
        · exact absurd hdu h4.2.1
      · rcases ds with _ | d2
        · exact absurd rfl h4.2.2
        · rfl
  · intro n e du ds lp h
    unfold signupHandleFace at h ⊢
    split_ifs at h ⊢ with h1 h2 h3 h4
    · exact Or.inl rfl
    · exact Or.inr h2
    · exact Or.inl rfl
    · exact Or.inl rfl
    · rcases du with _ | u
      · push_neg at h4
        exact absurd (show strFalsy (none : Option String) = true from rfl)
          h4.2.1
      · rcases ds with _ | d2
        · push_neg at h4
          exact absurd rfl h4.2.2
        · simp at h

/-! ## The camera-handle invariant (C7) -/

/-- Further result fields of the `onstop` handler, used by the state
invariant. -/
theorem onstopM_fst_more (c : Ctx) (s : WState) (oin : OnstopIn) :
    (onstopM c s oin).1.cameraActive = false ∧
    (onstopM c s oin).1.pendingCamera = s.pendingCamera ∧
    (onstopM c s oin).1.startingCamera = s.startingCamera ∧
    (onstopM c s oin).1.modelsPending = s.modelsPending ∧
    (onstopM c s oin).1.modelsLoaded = s.modelsLoaded ∧
    (onstopM c s oin).1.liveStreams =
      (match s.currentStream with
        | some id => s.liveStreams.erase id
        | none => s.liveStreams) ∧
    ((onstopM c s oin).1.step =
        LivenessStep.liveness_api_passed_awaiting_final_camera ∨
      (onstopM c s oin).1.step =
        LivenessStep.liveness_api_passed_ready_for_manual_final_capture ∨
      (onstopM c s oin).1.step = LivenessStep.liveness_failed_or_error) := by
  by_cases hc : c = Ctx.login <;>
    rcases hcs : s.currentStream with _ | sid <;>
    by_cases hml : s.modelsLoaded = true <;>
    by_cases hfo : oin.frameOk = true <;>
    by_cases hsize : oin.blobSize > MAX_VIDEO_SIZE_MB * 1024 * 1024 <;>
    rcases hdec : decodeLiveness oin.parse oin.fetch with _ | b <;>
    try cases b
  all_goals
    simp [onstopM, stopCameraM, hc, hcs, hml, hfo, hsize, hdec]

/-- State invariant of a mounted widget.  `streams_eq` is the heart of
claim C7: the streams with unstopped tracks are exactly the current one.
The remaining fields record which steps the asynchronous operations can be
pending in; they make the invariant inductive. -/
structure InvCore (c : Ctx) (s : WState) : Prop where
  streams_eq : s.liveStreams =
    (match s.currentStream with | some id => [id] | none => [])
  pending_cam : s.pendingCamera ≠ none →
    s.currentStream = none ∧ s.startingCamera = true
  inactive_steps : ∀ id, s.currentStream = some id → s.cameraActive = false →
    s.step = LivenessStep.awaiting_camera_for_video ∨
      (s.step = LivenessStep.liveness_api_passed_awaiting_final_camera ∧
        c ≠ Ctx.login)
  pending_steps : ∀ p, s.pendingCamera = some p →
    (p = CamPurpose.videoLiveness →
      s.step = LivenessStep.awaiting_camera_for_video) ∧
    (p = CamPurpose.finalCapture →
      s.step = LivenessStep.liveness_api_passed_awaiting_final_camera ∧
        c ≠ Ctx.login)
  active_stream : s.cameraActive = true → s.currentStream ≠ none
  onstop_ctx : s.onstopPending = true →
    s.recording = true ∧ s.step = LivenessStep.recording_video ∧
      s.pendingCamera = none
  recorder_ctx : s.recorder = some RecorderPhase.recording →
    s.step = LivenessStep.recording_video ∧ s.recording = true ∧
      s.pendingCamera = none
  inactive_rec : s.recorder = some RecorderPhase.inactive →
    s.onstopPending = true
  models_ctx : s.modelsPending = true →
    s.modelsLoaded = false ∧ s.recorder = none ∧ s.recording = false ∧
      s.pendingCamera = none ∧ s.onstopPending = false ∧
      s.step = LivenessStep.awaiting_models ∧ s.currentStream = none
  recording_cam : s.recording = true →
    s.cameraActive = true ∧ s.currentStream ≠ none
  recording_step : s.recording = true → s.step = LivenessStep.recording_video

/-- The C7 invariant: while mounted the widget satisfies `InvCore`; after
unmounting no tracks are live at all (unmounting is modelled as
terminal). -/
def Inv (c : Ctx) (s : WState) : Prop :=
  (s.unmounted = false → InvCore c s) ∧
  (s.unmounted = true → s.liveStreams = [])

theorem inv_init (c : Ctx) : Inv c initState := by
  constructor
  · intro _
    constructor <;> simp [initState]
  · intro h
    simp [initState] at h

theorem stopCameraM_live_nil (s : WState)
    (hstreams : s.liveStreams =
      (match s.currentStream with | some id => [id] | none => [])) :
    (stopCameraM s).1.liveStreams = [] := by
  rcases hcs : s.currentStream with _ | id <;>
    rw [hcs] at hstreams <;> simp [stopCameraM, hcs, hstreams]

theorem bool_clash {a : Bool} {C : Prop} (h1 : a = false) (h2 : a = true) :
    C := by
  rw [h1] at h2
  exact Bool.noConfusion h2

theorem opt_clash {α : Type} {a : Option α} {x : α} {C : Prop}
    (h1 : a = none) (h2 : a = some x) : C := by
  rw [h1] at h2
  exact Option.noConfusion h2

theorem step_clash {a x y : LivenessStep} {C : Prop} (h1 : a = x)
    (h2 : a = y) (hxy : x ≠ y) : C :=
  absurd (h1.symm.trans h2) hxy

/-- Outside the `recording_video` step no recording activity is pending. -/
theorem quiet_state {c : Ctx} {s : WState} (hcore : InvCore c s)
    (hstep : s.step ≠ LivenessStep.recording_video) :
    s.onstopPending = false ∧ s.recording = false ∧ s.recorder = none := by
  have h1 : s.onstopPending = false := by
    cases ho : s.onstopPending
    · rfl
    · exact absurd (hcore.onstop_ctx ho).2.1 hstep
  refine ⟨h1, ?_, ?_⟩
  · cases hr : s.recording
    · rfl
    · exact absurd (hcore.recording_step hr) hstep
  · rcases hr : s.recorder with _ | ph
    · rfl
    · cases ph
      · exact absurd (hcore.recorder_ctx hr).1 hstep
      · exact bool_clash h1 (hcore.inactive_rec hr)

theorem pending_none_of_cur {c : Ctx} {s : WState} (hcore : InvCore c s)
    (h : s.currentStream ≠ none) : s.pendingCamera = none := by
  rcases hp : s.pendingCamera with _ | p
  · rfl
  · exact absurd (hcore.pending_cam (by simp [hp])).1 h

theorem pending_none_of_step {c : Ctx} {s : WState} (hcore : InvCore c s)
    (h1 : s.step ≠ LivenessStep.awaiting_camera_for_video)
    (h2 : s.step ≠ LivenessStep.liveness_api_passed_awaiting_final_camera) :
    s.pendingCamera = none := by
  rcases hp : s.pendingCamera with _ | p
  · rfl
  · cases p
    · exact absurd ((hcore.pending_steps _ hp).1 rfl) h1
    · exact absurd ((hcore.pending_steps _ hp).2 rfl).1 h2

theorem models_off_of_step {c : Ctx} {s : WState} (hcore : InvCore c s)
    (hstep : s.step ≠ LivenessStep.awaiting_models) :
    s.modelsPending = false := by
  cases hm : s.modelsPending
  · rfl
  · exact absurd (hcore.models_ctx hm).2.2.2.2.2.1 hstep

theorem models_off_of_loaded {c : Ctx} {s : WState} (hcore : InvCore c s)
    (hml : s.modelsLoaded = true) : s.modelsPending = false := by
  cases hm : s.modelsPending
  · rfl
  · exact bool_clash (hcore.models_ctx hm).1 hml

theorem cam_off_of_none {c : Ctx} {s : WState} (hcore : InvCore c s)
    (hcur : s.currentStream = none) : s.cameraActive = false := by
  cases ha : s.cameraActive
  · rfl
  · exact absurd hcur (hcore.active_stream ha)

theorem recording_off_of_inactive {c : Ctx} {s : WState} (hcore : InvCore c s)
    (hact : s.cameraActive = false) : s.recording = false := by
  cases hr : s.recording
  · rfl
  · exact bool_clash hact (hcore.recording_cam hr).1

/-- A state with no stream, no recorder and nothing pending satisfies the
invariant outright. -/
theorem inv_of_closed (c : Ctx) (s : WState)
    (h1 : s.liveStreams = []) (h2 : s.currentStream = none)
    (h3 : s.cameraActive = false) (h4 : s.onstopPending = false)
    (h5 : s.recorder = none) (h6 : s.pendingCamera = none)
    (h7 : s.modelsPending = false) (h8 : s.recording = false) :
    Inv c s := by
  refine ⟨fun _ => ?_, fun _ => h1⟩
  refine ⟨?_, ?_, ?_, ?_, ?_, ?_, ?_, ?_, ?_, ?_, ?_⟩
  · rw [h1, h2]
  · exact fun hne => absurd h6 hne
  · exact fun id hid => opt_clash h2 hid
  · exact fun p hp2 => opt_clash h6 hp2
  · exact fun ha => bool_clash h3 ha
  · exact fun ho => bool_clash h4 ho
  · exact fun hr => opt_clash h5 hr
  · exact fun hr => opt_clash h5 hr
  · exact fun hm => bool_clash h7 hm
  · exact fun hr => bool_clash h8 hr
  · exact fun hr => bool_clash h8 hr

/-- `startCamera` preserves the invariant from any quiet mounted state that
is not waiting on the video camera. -/
theorem inv_startCameraSyncM (c : Ctx) (s : WState) (p : CamPurpose)
    (renv : RecEnv) (hcore : InvCore c s) (hu2 : s.unmounted = false)
    (hosp0 : s.onstopPending = false) (hrec0 : s.recording = false)
    (hrcd0 : s.recorder = none) (hmp0 : s.modelsPending = false)
    (hnrv : s.step ≠ LivenessStep.awaiting_camera_for_video)
    (hpf : p = CamPurpose.finalCapture → c ≠ Ctx.login)
    (hcurn : s.currentStream.isSome = true → s.cameraActive = true) :
    Inv c (startCameraSyncM c s p renv).1 := by
  unfold startCameraSyncM
  split_ifs with hA hB hC hD
  · exact ⟨fun _ => hcore, fun habs => bool_clash hu2 habs⟩
  · exact absurd hC.2.2.1 hnrv
  · obtain ⟨hiso, hact1⟩ : s.currentStream.isSome = true ∧
        s.cameraActive = true := by simpa using hB
    refine ⟨fun _ => ?_, fun habs => bool_clash hu2 habs⟩
    refine ⟨?_, ?_, ?_, ?_, ?_, ?_, ?_, ?_, ?_, ?_, ?_⟩
    · exact hcore.streams_eq
    · exact hcore.pending_cam
    · exact fun id hid hact => bool_clash hact hact1
    · intro p2 hp2
      have hp3 : s.pendingCamera = some p2 := hp2
      exact absurd hiso (by
        rw [(hcore.pending_cam (by simp [hp3])).1]; simp)
    · exact fun ha => hcore.active_stream ha
    · exact fun ho => bool_clash hosp0 ho
    · exact fun hr => opt_clash hrcd0 hr
    · exact fun hr => opt_clash hrcd0 hr
    · exact fun hm => bool_clash hmp0 hm
    · exact fun hr => bool_clash hrec0 hr
    · exact fun hr => bool_clash hrec0 hr
  · exact ⟨fun _ => hcore, fun habs => bool_clash hu2 habs⟩
  · have hcur0 : s.currentStream = none := by
      rcases hc2 : s.currentStream with _ | id
      · rfl
      · exact absurd (by rw [hc2, hcurn (by rw [hc2]; rfl)]; rfl) hB
    have hact0 : s.cameraActive = false := cam_off_of_none hcore hcur0
    refine ⟨fun _ => ?_, fun habs => bool_clash hu2 habs⟩
    refine ⟨?_, ?_, ?_, ?_, ?_, ?_, ?_, ?_, ?_, ?_, ?_⟩
    · exact hcore.streams_eq
    · exact fun _ => ⟨hcur0, rfl⟩
    · exact fun id hid => opt_clash hcur0 hid
    · intro p2 hp2
      obtain rfl := Option.some.inj hp2
      constructor
      · intro hv; subst hv; rfl
      · intro hf; subst hf; exact ⟨rfl, hpf rfl⟩
    · exact fun ha => bool_clash hact0 ha
    · exact fun ho => bool_clash hosp0 ho
    · exact fun hr => opt_clash hrcd0 hr
    · exact fun hr => opt_clash hrcd0 hr
    · exact fun hm => bool_clash hmp0 hm
    · exact fun hr => bool_clash hrec0 hr
    · exact fun hr => bool_clash hrec0 hr

/-- Every enabled transition preserves the camera-handle invariant. -/
theorem inv_step (c : Ctx) :
    ∀ (s : WState) (ev : Event) (s2 : WState) (outs : List Out),
      Inv c s → stepM c s ev = some (s2, outs) → Inv c s2 := by
  intro s ev s2 outs hinv h
  rw [stepM] at h
  by_cases hu : s.unmounted = true
  · rw [if_pos hu] at h; exact Option.noConfusion h
  rw [if_neg hu] at h
  have hu2 : s.unmounted = false := by
    cases hum : s.unmounted
    · rfl
    · exact absurd hum hu
  have hcore := hinv.1 hu2
  cases ev with
  | modelsOk =>
    simp only [stepCore] at h
    by_cases hp : s.modelsPending = true
    · rw [if_pos hp, Option.some.injEq, Prod.mk.injEq] at h
      obtain ⟨rfl, rfl⟩ := h
      obtain ⟨hml2, hrcd2, hrc2, hpc2, hosp2, hstep2, hcur2⟩ :=
        hcore.models_ctx hp
      refine ⟨fun _ => ?_, fun habs => bool_clash hu2 habs⟩
      refine ⟨?_, ?_, ?_, ?_, ?_, ?_, ?_, ?_, ?_, ?_, ?_⟩
      · simp [hcore.streams_eq, hcur2]
      · exact fun hne => absurd hpc2 hne
      · exact fun id hid => opt_clash hcur2 hid
      · exact fun p hp2 => opt_clash hpc2 hp2
      · exact fun ha => bool_clash (cam_off_of_none hcore hcur2) ha
      · exact fun ho => bool_clash hosp2 ho
      · exact fun hr => opt_clash hrcd2 hr
      · exact fun hr => opt_clash hrcd2 hr
      · exact fun hm => Bool.noConfusion hm
      · exact fun hr => bool_clash hrc2 hr
      · exact fun hr => bool_clash hrc2 hr
    · rw [if_neg hp] at h; exact Option.noConfusion h
  | modelsErr =>
    simp only [stepCore] at h
    by_cases hp : s.modelsPending = true
    · rw [if_pos hp, Option.some.injEq, Prod.mk.injEq] at h
      obtain ⟨rfl, rfl⟩ := h
      obtain ⟨hml2, hrcd2, hrc2, hpc2, hosp2, hstep2, hcur2⟩ :=
        hcore.models_ctx hp
      refine ⟨fun _ => ?_, fun habs => bool_clash hu2 habs⟩
      refine ⟨?_, ?_, ?_, ?_, ?_, ?_, ?_, ?_, ?_, ?_, ?_⟩
      · simp [hcore.streams_eq, hcur2]
      · exact fun hne => absurd hpc2 hne
      · exact fun id hid => opt_clash hcur2 hid
      · exact fun p hp2 => opt_clash hpc2 hp2
      · exact fun ha => bool_clash (cam_off_of_none hcore hcur2) ha
      · exact fun ho => bool_clash hosp2 ho
      · exact fun hr => opt_clash hrcd2 hr
      · exact fun hr => opt_clash hrcd2 hr
      · exact fun hm => Bool.noConfusion hm
      · exact fun hr => bool_clash hrc2 hr
      · exact fun hr => bool_clash hrc2 hr
    · rw [if_neg hp] at h; exact Option.noConfusion h
  | clickStart pp renv =>
    simp only [stepCore] at h
    by_cases hen : clickStartEnabled c s pp
    · rw [if_pos hen, Option.some.injEq] at h
      have hstepnr : s.step ≠ LivenessStep.recording_video := by
        rcases hen.1 with hi | ⟨hi, _, _⟩ <;> rw [hi] <;> decide
      have hstepnm : s.step ≠ LivenessStep.awaiting_models := by
        rcases hen.1 with hi | ⟨hi, _, _⟩ <;> rw [hi] <;> decide
      have hstepnv : s.step ≠ LivenessStep.awaiting_camera_for_video := by
        rcases hen.1 with hi | ⟨hi, _, _⟩ <;> rw [hi] <;> decide
      obtain ⟨hosp0, hrec0, hrcd0⟩ := quiet_state hcore hstepnr
      have hmp0 : s.modelsPending = false := models_off_of_step hcore hstepnm
      have hcurn : s.currentStream.isSome = true → s.cameraActive = true := by
        intro hiso
        rcases hc2 : s.currentStream with _ | id
        · rw [hc2] at hiso; exact Bool.noConfusion hiso
        · cases ha : s.cameraActive
          · rcases hcore.inactive_steps id hc2 ha with hi2 | hi2 <;>
              rcases hen.1 with hi | hi
            · exact step_clash (a := s.step) hi hi2 (by decide)
            · exact step_clash (a := s.step) hi.1 hi2 (by decide)
            · exact step_clash (a := s.step) hi hi2.1 (by decide)
            · exact absurd hi.2.1 hi2.2
          · rfl
      have hcore1 : InvCore c
          { s with error := none, recording := false, verifying := false } :=
        { streams_eq := hcore.streams_eq
          pending_cam := hcore.pending_cam
          inactive_steps := hcore.inactive_steps
          pending_steps := hcore.pending_steps
          active_stream := hcore.active_stream
          onstop_ctx := fun ho => bool_clash hosp0 ho
          recorder_ctx := fun hr => opt_clash hrcd0 hr
          inactive_rec := fun hr => opt_clash hrcd0 hr
          models_ctx := fun hm => bool_clash hmp0 hm
          recording_cam := fun hr => bool_clash rfl hr
          recording_step := fun hr => bool_clash rfl hr }
      have hinv2 := inv_startCameraSyncM c
        { s with error := none, recording := false, verifying := false }
        CamPurpose.videoLiveness renv hcore1 hu2 hosp0 rfl hrcd0 hmp0
        hstepnv (fun hf => CamPurpose.noConfusion hf) hcurn
      have hf2 : _ = s2 := congrArg Prod.fst h
      rw [← hf2]
      exact hinv2
    · rw [if_neg hen] at h; exact Option.noConfusion h
  | cameraOk =>
    simp only [stepCore] at h
    rcases hpc : s.pendingCamera with _ | p
    · simp only [hpc] at h; exact Option.noConfusion h
    · simp only [hpc, Option.some.injEq, Prod.mk.injEq] at h
      obtain ⟨rfl, rfl⟩ := h
      obtain ⟨hcur0, hstart0⟩ := hcore.pending_cam (by simp [hpc])
      have hlive0 : s.liveStreams = [] := by
        rw [hcore.streams_eq, hcur0]
      have hact0 : s.cameraActive = false := cam_off_of_none hcore hcur0
      have hosp0 : s.onstopPending = false := by
        cases ho : s.onstopPending
        · rfl
        · exact opt_clash (hcore.onstop_ctx ho).2.2 hpc
      have hrec0 : s.recording = false :=
        recording_off_of_inactive hcore hact0
      have hrcd0 : s.recorder ≠ some RecorderPhase.recording := fun hr =>
        opt_clash (hcore.recorder_ctx hr).2.2 hpc
      have hmp0 : s.modelsPending = false := by
        cases hm : s.modelsPending
        · rfl
        · exact opt_clash (hcore.models_ctx hm).2.2.2.1 hpc
      refine ⟨fun _ => ?_, fun habs => bool_clash hu2 habs⟩
      refine ⟨?_, ?_, ?_, ?_, ?_, ?_, ?_, ?_, ?_, ?_, ?_⟩
      · simp [hlive0]
      · exact fun hne => absurd rfl hne
      · intro id hid hact2
        have hsteps := hcore.pending_steps p hpc
        cases p
        · exact Or.inl (hsteps.1 rfl)
        · exact Or.inr (hsteps.2 rfl)
      · exact fun p2 hp2 => Option.noConfusion hp2
      · exact fun ha => by simp
      · exact fun ho => bool_clash hosp0 ho
      · exact fun hr => absurd hr hrcd0
      · exact hcore.inactive_rec
      · exact fun hm => bool_clash hmp0 hm
      · exact fun hr => bool_clash hrec0 hr
      · exact fun hr => bool_clash hrec0 hr
  | cameraErr =>
    simp only [stepCore] at h
    rcases hpc : s.pendingCamera with _ | p
    · simp only [hpc] at h; exact Option.noConfusion h
    · simp only [hpc, Option.some.injEq, Prod.mk.injEq] at h
      obtain ⟨rfl, rfl⟩ := h
      obtain ⟨hcur0, hstart0⟩ := hcore.pending_cam (by simp [hpc])
      have hlive0 : s.liveStreams = [] := by
        rw [hcore.streams_eq, hcur0]
      have hact0 : s.cameraActive = false := cam_off_of_none hcore hcur0
      have hosp0 : s.onstopPending = false := by
        cases ho : s.onstopPending
        · rfl
        · exact opt_clash (hcore.onstop_ctx ho).2.2 hpc
      have hrec0 : s.recording = false :=
        recording_off_of_inactive hcore hact0
      have hrcd0 : s.recorder = none := by
        rcases hr : s.recorder with _ | ph
        · rfl
        · cases ph
          · exact opt_clash (hcore.recorder_ctx hr).2.2 hpc
          · exact bool_clash hosp0 (hcore.inactive_rec hr)
      have hmp0 : s.modelsPending = false := by
        cases hm : s.modelsPending
        · rfl
        · exact opt_clash (hcore.models_ctx hm).2.2.2.1 hpc
      exact inv_of_closed c _ hlive0 rfl hact0 hosp0 hrcd0 rfl hmp0 hrec0
  | playOk renv =>
    simp only [stepCore] at h
    by_cases hb1 : (s.currentStream.isSome && !s.cameraActive) = true
    · rw [if_pos hb1] at h
      obtain ⟨hiso, hact0⟩ : s.currentStream.isSome = true ∧
          s.cameraActive = false := by simpa using hb1
      obtain ⟨id0, hc2⟩ := Option.isSome_iff_exists.mp hiso
      have hmp0 : s.modelsPending = false := by
        cases hm : s.modelsPending
        · rfl
        · exact opt_clash (hcore.models_ctx hm).2.2.2.2.2.2 hc2
      have hpc0 : s.pendingCamera = none :=
        pending_none_of_cur hcore (by simp [hc2])
      by_cases hlg : c = Ctx.login ∧
          s.step = LivenessStep.awaiting_camera_for_video ∧ s.recording = false
      · rw [if_pos hlg, Option.some.injEq] at h
        have hstepnr : s.step ≠ LivenessStep.recording_video := by
          rw [hlg.2.1]; decide
        obtain ⟨hosp0, hrec0, hrcd0⟩ := quiet_state hcore hstepnr
        unfold startRecordingSeqM at h
        split_ifs at h with h1 h2 h3
        · exact bool_clash hrec0 h1
        · have hfst : _ = s2 := congrArg Prod.fst h
          refine inv_of_closed c s2 ?_ ?_ ?_ ?_ ?_ ?_ ?_ ?_
          · rw [← hfst]; exact stopCameraM_live_nil _ hcore.streams_eq
          · rw [← hfst]; rfl
          · rw [← hfst]; rfl
          · rw [← hfst]; simp [stopCameraM, hosp0, hrcd0]
          · rw [← hfst]; rfl
          · rw [← hfst]; simp [stopCameraM, hpc0]
          · rw [← hfst]; simp [stopCameraM, hmp0]
          · rw [← hfst]; simp [stopCameraM, hrec0]
        · simp only [Prod.mk.injEq] at h
          obtain ⟨rfl, rfl⟩ := h
          refine ⟨fun _ => ?_, fun habs => bool_clash hu2 habs⟩
          refine ⟨?_, ?_, ?_, ?_, ?_, ?_, ?_, ?_, ?_, ?_, ?_⟩
          · exact hcore.streams_eq
          · exact fun hne => absurd hpc0 hne
          · exact fun id hid hact => Bool.noConfusion hact
          · exact fun p hp2 => opt_clash hpc0 hp2
          · exact fun _ => by simp [hc2]
          · exact fun ho => bool_clash hosp0 ho
          · exact fun _ => ⟨rfl, rfl, hpc0⟩
          · exact fun hr => RecorderPhase.noConfusion (Option.some.inj hr)
          · exact fun hm => bool_clash hmp0 hm
          · exact fun _ => ⟨rfl, by simp [hc2]⟩
          · exact fun _ => rfl
        · simp only [Prod.mk.injEq] at h
          obtain ⟨rfl, rfl⟩ := h
          refine inv_of_closed c _ ?_ ?_ ?_ ?_ ?_ ?_ ?_ ?_
          · exact stopCameraM_live_nil _ hcore.streams_eq
          · rfl
          · rfl
          · simp [stopCameraM, hosp0, hrcd0]
          · rfl
          · simp [stopCameraM, hpc0]
          · simp [stopCameraM, hmp0]
          · rfl
      · rw [if_neg hlg, Option.some.injEq, Prod.mk.injEq] at h
        obtain ⟨rfl, rfl⟩ := h
        refine ⟨fun _ => ?_, fun habs => bool_clash hu2 habs⟩
        refine ⟨?_, ?_, ?_, ?_, ?_, ?_, ?_, ?_, ?_, ?_, ?_⟩
        · exact hcore.streams_eq
        · exact fun hne => absurd hpc0 hne
        · exact fun id hid hact => Bool.noConfusion hact
        · exact fun p hp2 => opt_clash hpc0 hp2
        · exact fun _ => by simp [hc2]
        · exact hcore.onstop_ctx
        · exact hcore.recorder_ctx
        · exact hcore.inactive_rec
        · exact hcore.models_ctx
        · exact fun hr => ⟨rfl, (hcore.recording_cam hr).2⟩
        · exact hcore.recording_step
    · rw [if_neg hb1] at h; exact Option.noConfusion h
  | playErr =>
    simp only [stepCore] at h
    by_cases hb1 : (s.currentStream.isSome && !s.cameraActive) = true
    · rw [if_pos hb1, Option.some.injEq] at h
      obtain ⟨hiso, hact0⟩ : s.currentStream.isSome = true ∧
          s.cameraActive = false := by simpa using hb1
      obtain ⟨id0, hc2⟩ := Option.isSome_iff_exists.mp hiso
      have hpc0 : s.pendingCamera = none :=
        pending_none_of_cur hcore (by simp [hc2])
      have hmp0 : s.modelsPending = false := by
        cases hm : s.modelsPending
        · rfl
        · exact opt_clash (hcore.models_ctx hm).2.2.2.2.2.2 hc2
      have hrec0 : s.recording = false :=
        recording_off_of_inactive hcore hact0
      have hstepnr : s.step ≠ LivenessStep.recording_video := by
        rcases hcore.inactive_steps id0 hc2 hact0 with hi | hi
        · rw [hi]; decide
        · rw [hi.1]; decide
      obtain ⟨hosp0, -, hrcd0⟩ := quiet_state hcore hstepnr
      have hfst : _ = s2 := congrArg Prod.fst h
      refine inv_of_closed c s2 ?_ ?_ ?_ ?_ ?_ ?_ ?_ ?_
      · rw [← hfst]; exact stopCameraM_live_nil _ hcore.streams_eq
      · rw [← hfst]; rfl
      · rw [← hfst]; rfl
      · rw [← hfst]; simp [stopCameraM, hosp0, hrcd0]
      · rw [← hfst]; rfl
      · rw [← hfst]; simp [stopCameraM, hpc0]
      · rw [← hfst]; simp [stopCameraM, hmp0]
      · rw [← hfst]; simp [stopCameraM, hrec0]
    · rw [if_neg hb1] at h; exact Option.noConfusion h
  | timeoutFires =>
    simp only [stepCore] at h
    rcases hrec : s.recorder with _ | ph
    · simp only [hrec, timerCallback, Bool.or_false] at h
      rw [Option.some.injEq, Prod.mk.injEq] at h
      obtain ⟨rfl, rfl⟩ := h
      refine ⟨fun _ => ?_, fun habs => bool_clash hu2 habs⟩
      refine ⟨?_, ?_, ?_, ?_, ?_, ?_, ?_, ?_, ?_, ?_, ?_⟩
      · exact hcore.streams_eq
      · exact hcore.pending_cam
      · exact hcore.inactive_steps
      · exact hcore.pending_steps
      · exact hcore.active_stream
      · exact hcore.onstop_ctx
      · exact fun hr => Option.noConfusion hr
      · exact fun hr => Option.noConfusion hr
      · intro hm
        obtain ⟨a1, a2, a3, a4, a5, a6, a7⟩ := hcore.models_ctx hm
        exact ⟨a1, rfl, a3, a4, a5, a6, a7⟩
      · exact hcore.recording_cam
      · exact hcore.recording_step
    · cases ph
      · simp only [hrec, timerCallback, Bool.or_true] at h
        rw [Option.some.injEq, Prod.mk.injEq] at h
        obtain ⟨rfl, rfl⟩ := h
        obtain ⟨hst0, hrc0, hpc0⟩ := hcore.recorder_ctx hrec
        refine ⟨fun _ => ?_, fun habs => bool_clash hu2 habs⟩
        refine ⟨?_, ?_, ?_, ?_, ?_, ?_, ?_, ?_, ?_, ?_, ?_⟩
        · exact hcore.streams_eq
        · exact hcore.pending_cam
        · exact hcore.inactive_steps
        · exact hcore.pending_steps
        · exact hcore.active_stream
        · exact fun _ => ⟨hrc0, hst0, hpc0⟩
        · exact fun hr => by simp at hr
        · exact fun _ => rfl
        · intro hm
          exact opt_clash (hcore.models_ctx hm).2.1 hrec
        · exact hcore.recording_cam
        · exact hcore.recording_step
      · simp only [hrec, timerCallback, Bool.or_false] at h
        rw [Option.some.injEq, Prod.mk.injEq] at h
        obtain ⟨rfl, rfl⟩ := h
        refine ⟨fun _ => ?_, fun habs => bool_clash hu2 habs⟩
        refine ⟨?_, ?_, ?_, ?_, ?_, ?_, ?_, ?_, ?_, ?_, ?_⟩
        · exact hcore.streams_eq
        · exact hcore.pending_cam
        · exact hcore.inactive_steps
        · exact hcore.pending_steps
        · exact hcore.active_stream
        · exact hcore.onstop_ctx
        · exact fun hr => by simp at hr
        · exact fun _ => hcore.inactive_rec hrec
        · intro hm
          exact opt_clash (hcore.models_ctx hm).2.1 hrec
        · exact hcore.recording_cam
        · exact hcore.recording_step
  | onstopRuns oin =>
    simp only [stepCore] at h
    by_cases hosp : s.onstopPending = true
    · rw [if_pos hosp, Option.some.injEq] at h
      obtain ⟨hrec1, hstep1, hpc0⟩ := hcore.onstop_ctx hosp
      obtain ⟨hact1, hcurne⟩ := hcore.recording_cam hrec1
      obtain ⟨id0, hc2⟩ := Option.ne_none_iff_exists'.mp hcurne
      have hmp0 : s.modelsPending = false := by
        cases hm : s.modelsPending
        · rfl
        · exact bool_clash (hcore.models_ctx hm).2.2.2.2.1 hosp
      have hlive1 : s.liveStreams = [id0] := by
        rw [hcore.streams_eq, hc2]
      have hff := onstopM_fst_fields c { s with onstopPending := false } oin
      have hfm := onstopM_fst_more c { s with onstopPending := false } oin
      rw [h] at hff hfm
      refine inv_of_closed c s2 ?_ ?_ ?_ ?_ ?_ ?_ ?_ ?_
      · have hl2 := hfm.2.2.2.2.2.1
        simp only [hc2, hlive1] at hl2
        simpa using hl2
      · exact hff.2.2.2
      · exact hfm.1
      · exact hff.2.2.1
      · exact hff.2.1
      · exact hfm.2.1.trans hpc0
      · exact (hfm.2.2.2.1).trans hmp0
      · exact hff.1
    · rw [if_neg hosp] at h; exact Option.noConfusion h
  | effectStartFinalCam =>
    simp only [stepCore] at h
    by_cases hg : s.step =
        LivenessStep.liveness_api_passed_ready_for_manual_final_capture ∧
        (c = Ctx.signup ∨ c = Ctx.adminUpdate)
    · rw [if_pos hg, Option.some.injEq] at h
      have hstepnr : s.step ≠ LivenessStep.recording_video := by
        rw [hg.1]; decide
      have hstepnm : s.step ≠ LivenessStep.awaiting_models := by
        rw [hg.1]; decide
      have hstepnv : s.step ≠ LivenessStep.awaiting_camera_for_video := by
        rw [hg.1]; decide
      obtain ⟨hosp0, hrec0, hrcd0⟩ := quiet_state hcore hstepnr
      have hmp0 : s.modelsPending = false := models_off_of_step hcore hstepnm
      have hpf : CamPurpose.finalCapture = CamPurpose.finalCapture →
          c ≠ Ctx.login := by
        rcases hg.2 with hcx | hcx <;> rw [hcx] <;> exact fun _ => by decide
      have hcurn : s.currentStream.isSome = true → s.cameraActive = true := by
        intro hiso
        rcases hc2 : s.currentStream with _ | id
        · rw [hc2] at hiso; exact Bool.noConfusion hiso
        · cases ha : s.cameraActive
          · rcases hcore.inactive_steps id hc2 ha with hi2 | hi2
            · exact step_clash (a := s.step) hg.1 hi2 (by decide)
            · exact step_clash (a := s.step) hg.1 hi2.1 (by decide)
          · rfl
      have hinv2 := inv_startCameraSyncM c s CamPurpose.finalCapture
        { streamOk := true, recInitOk := true } hcore hu2 hosp0 hrec0 hrcd0
        hmp0 hstepnv hpf hcurn
      have hf2 : _ = s2 := congrArg Prod.fst h
      rw [← hf2]
      exact hinv2
    · rw [if_neg hg] at h; exact Option.noConfusion h
  | effectFinalActive =>
    simp only [stepCore] at h
    by_cases hg : s.cameraActive = true ∧
        s.step = LivenessStep.liveness_api_passed_awaiting_final_camera ∧
        (c = Ctx.signup ∨ c = Ctx.adminUpdate)
    · rw [if_pos hg, Option.some.injEq, Prod.mk.injEq] at h
      obtain ⟨rfl, rfl⟩ := h
      have hstepnr : s.step ≠ LivenessStep.recording_video := by
        rw [hg.2.1]; decide
      have hstepnm : s.step ≠ LivenessStep.awaiting_models := by
        rw [hg.2.1]; decide
      obtain ⟨hosp0, hrec0, hrcd0⟩ := quiet_state hcore hstepnr
      have hmp0 : s.modelsPending = false := models_off_of_step hcore hstepnm
      have hpc0 : s.pendingCamera = none :=
        pending_none_of_cur hcore (hcore.active_stream hg.1)
      refine ⟨fun _ => ?_, fun habs => bool_clash hu2 habs⟩
      refine ⟨?_, ?_, ?_, ?_, ?_, ?_, ?_, ?_, ?_, ?_, ?_⟩
      · exact hcore.streams_eq
      · exact fun hne => absurd hpc0 hne
      · exact fun id hid hact => bool_clash hact hg.1
      · exact fun p hp2 => opt_clash hpc0 hp2
      · exact fun _ => hcore.active_stream hg.1
      · exact fun ho => bool_clash hosp0 ho
      · exact fun hr => opt_clash hrcd0 hr
      · exact fun hr => opt_clash hrcd0 hr
      · exact fun hm => bool_clash hmp0 hm
      · exact fun hr => bool_clash hrec0 hr
      · exact fun hr => bool_clash hrec0 hr
    · rw [if_neg hg] at h; exact Option.noConfusion h
  | clickManual m =>
    simp only [stepCore] at h
    by_cases hen : clickManualEnabled c s
    · rw [if_pos hen, Option.some.injEq] at h
      have hstepnr : s.step ≠ LivenessStep.recording_video := by
        rcases hen.1 with hi | hi <;> rw [hi] <;> decide
      have hstepnm : s.step ≠ LivenessStep.awaiting_models := by
        rcases hen.1 with hi | hi <;> rw [hi] <;> decide
      obtain ⟨hosp0, hrec0, hrcd0⟩ := quiet_state hcore hstepnr
      have hmp0 : s.modelsPending = false := models_off_of_step hcore hstepnm
      have hpc0 : s.pendingCamera = none :=
        pending_none_of_cur hcore (hcore.active_stream hen.2.1)
      unfold manualM at h
      split_ifs at h with hg
      · simp only [Prod.mk.injEq] at h
        obtain ⟨rfl, rfl⟩ := h
        refine inv_of_closed c _ ?_ ?_ ?_ ?_ ?_ ?_ ?_ ?_
        · exact stopCameraM_live_nil _ hcore.streams_eq
        · rfl
        · rfl
        · simp [stopCameraM, hosp0, hrcd0]
        · rfl
        · simp [stopCameraM, hpc0]
        · simp [stopCameraM, hmp0]
        · simp [stopCameraM, hrec0]
      · simp only [Prod.mk.injEq] at h
        obtain ⟨rfl, rfl⟩ := h
        exact hinv
    · rw [if_neg hen] at h; exact Option.noConfusion h
  | clickRetry =>
    simp only [stepCore] at h
    by_cases hen : clickRetryEnabled s
    · rw [if_pos hen, Option.some.injEq] at h
      have hstepnr : s.step ≠ LivenessStep.recording_video := by
        rw [hen.1]; decide
      have hstepnm : s.step ≠ LivenessStep.awaiting_models := by
        rw [hen.1]; decide
      obtain ⟨hosp0, hrec0, hrcd0⟩ := quiet_state hcore hstepnr
      have hmp0 : s.modelsPending = false := models_off_of_step hcore hstepnm
      have hpc0 : s.pendingCamera = none := by
        refine pending_none_of_step hcore ?_ ?_ <;> rw [hen.1] <;> decide
      have hfst : _ = s2 := congrArg Prod.fst h
      have hl : s2.liveStreams = [] := by
        rw [← hfst]; exact stopCameraM_live_nil s hcore.streams_eq
      have hcur : s2.currentStream = none := by rw [← hfst]; rfl
      have hact : s2.cameraActive = false := by rw [← hfst]; rfl
      have hrcd : s2.recorder = none := by rw [← hfst]; rfl
      have hrec : s2.recording = false := by rw [← hfst]; rfl
      have hosp : s2.onstopPending = false := by
        rw [← hfst]; simp [retryM, stopCameraM, hosp0, hrcd0]
      have hpc : s2.pendingCamera = none := by
        rw [← hfst]; simp [retryM, stopCameraM, hpc0]
      have hml : s2.modelsLoaded = s.modelsLoaded := by rw [← hfst]; rfl
      have hmp : s2.modelsPending = !s.modelsLoaded := by
        rw [← hfst]; simp [retryM, stopCameraM, hmp0]
      have hstep : s2.step = (if s.modelsLoaded then LivenessStep.initial
          else LivenessStep.awaiting_models) := by
        rw [← hfst]; rfl
      have hun : s2.unmounted = false := by
        rw [← hfst]; exact hu2
      refine ⟨fun _ => ?_, fun habs => bool_clash hun habs⟩
      refine ⟨?_, ?_, ?_, ?_, ?_, ?_, ?_, ?_, ?_, ?_, ?_⟩
      · rw [hl, hcur]
      · exact fun hne => absurd hpc hne
      · exact fun id hid => opt_clash hcur hid
      · exact fun p hp2 => opt_clash hpc hp2
      · exact fun ha => bool_clash hact ha
      · exact fun ho => bool_clash hosp ho
      · exact fun hr => opt_clash hrcd hr
      · exact fun hr => opt_clash hrcd hr
      · intro hm
        rw [hmp] at hm
        have hml0 : s.modelsLoaded = false := by
          cases hml2 : s.modelsLoaded
          · rfl
          · rw [hml2] at hm; exact Bool.noConfusion hm
        refine ⟨?_, hrcd, hrec, hpc, hosp, ?_, hcur⟩
        · rw [hml, hml0]
        · rw [hstep, hml0]; rfl
      · exact fun hr => bool_clash hrec hr
      · exact fun hr => bool_clash hrec hr
    · rw [if_neg hen] at h; exact Option.noConfusion h
  | unmount =>
    simp only [stepCore] at h
    rw [Option.some.injEq, Prod.mk.injEq] at h
    obtain ⟨rfl, rfl⟩ := h
    refine ⟨fun habs => Bool.noConfusion habs, fun _ => ?_⟩
    exact stopCameraM_live_nil s hcore.streams_eq

/-- The invariant holds along every execution. -/
theorem inv_exec (c : Ctx) :
    ∀ (es : List Event) (s s2 : WState) (outs : List Out),
      Inv c s → exec c s es = some (s2, outs) → Inv c s2 := by
  intro es
  induction es with
  | nil =>
    intro s s2 outs hinv h
    simp only [exec, Option.some.injEq, Prod.mk.injEq] at h
    obtain ⟨rfl, rfl⟩ := h
    exact hinv
  | cons ev es ih =>
    intro s s2 outs hinv h
    simp only [exec, Option.bind_eq_some, Option.map_eq_some'] at h
    obtain ⟨⟨s1, o1⟩, h1, ⟨s3, o2⟩, h2, h3⟩ := h
    cases h3
    exact ih s1 s3 o2 (inv_step c s ev s1 o1 hinv h1) h2

/-! ## Concrete demonstration runs -/

/-- A JSON grammar under which the doubly-nested liveness payload decodes
to a pass. -/
def passParse : String → Option Json := fun s =>
  if s = "inner" then some (Json.obj [("response", Json.str "fin")])
  else if s = "fin" then some (Json.obj [("isLivePerson", Json.bool true)])
  else none

def passBody : Json := Json.obj [("response", Json.str "inner")]

/-- An `onstop` environment in which the liveness check passes. -/
def passOnstop : OnstopIn :=
  { frameOk := true
    frameData := "frame"
    detection := some { descriptor := [1, 2] }
    blobSize := 0
    fetch := FetchOutcome.http true (some passBody)
    parse := passParse }

/-- A complete login run whose liveness check passes. -/
def passEvents : List Event :=
  [Event.modelsOk,
   Event.clickStart false { streamOk := true, recInitOk := true },
   Event.cameraOk, Event.playOk { streamOk := true, recInitOk := true },
   Event.timeoutFires, Event.onstopRuns passOnstop]

/-- The final state of `passEvents`. -/
def passFinal : WState :=
  { initState with
      step := LivenessStep.liveness_api_passed_awaiting_final_camera
      modelsLoaded := true
      modelsPending := false
      nextId := 1 }

/-- The output trace of `passEvents`. -/
def passOuts : List Out :=
  [Out.acquire 0, Out.recStart, Out.frameLoginTaken, Out.trackStop 0,
   Out.request, Out.apiPass, Out.cb (some "frame") (some [1, 2]) true]

/-- The prefix of `passOuts` before its true callback. -/
def passPre : List Out :=
  [Out.acquire 0, Out.recStart, Out.frameLoginTaken, Out.trackStop 0,
   Out.request, Out.apiPass]

/-- An `onstop` environment in which the fetch throws. -/
def demoOnstop : OnstopIn :=
  { frameOk := true
    frameData := "frame"
    detection := none
    blobSize := 0
    fetch := FetchOutcome.fetchThrew
    parse := fun _ => none }

/-- A complete login run whose verification request fails. -/
def demoEvents : List Event :=
  [Event.modelsOk,
   Event.clickStart false { streamOk := true, recInitOk := true },
   Event.cameraOk, Event.playOk { streamOk := true, recInitOk := true },
   Event.timeoutFires, Event.onstopRuns demoOnstop]

/-- An oversized recording environment. -/
def bigOnstop : OnstopIn :=
  { demoOnstop with blobSize := 7000000 }

/-- Inputs of a manual final capture whose detection found no face. -/
def manualInDemo : ManualIn :=
  { refsOk := true, frameData := "frame", detection := none }

/-- A state in which the manual final-capture button is live. -/
def manualState : WState :=
  { initState with
      currentStream := some 0
      cameraActive := true
      step := LivenessStep.final_capture_active
      liveStreams := [0]
      modelsLoaded := true
      modelsPending := false
      nextId := 1 }

/-! ## Claim theorems: traces (C2, C4, C7) -/

/-- When the `onstop` handler captures the login still frame, that frame is
its first output — ahead of the verification request it sends later. -/
theorem onstopM_loginFrame_first (c : Ctx) (s : WState) (oin : OnstopIn) :
    Out.frameLoginTaken ∈ (onstopM c s oin).2 →
    ∃ rest, (onstopM c s oin).2 = Out.frameLoginTaken :: rest := by
  by_cases hc : c = Ctx.login <;>
    rcases hcs : s.currentStream with _ | sid <;>
    by_cases hml : s.modelsLoaded = true <;>
    by_cases hfo : oin.frameOk = true <;>
    by_cases hsize : oin.blobSize > MAX_VIDEO_SIZE_MB * 1024 * 1024 <;>
    rcases hdec : decodeLiveness oin.parse oin.fetch with _ | b <;>
    try cases b
  all_goals intro hmem
  all_goals
    simp [onstopM, stopCameraM, hc, hcs, hml, hfo, hsize, hdec] at hmem ⊢

/-- Claim C2 (amended).  The machine-level phases are ordered along every
run from the initial state: a recording start is preceded by a camera
acquisition, a verification request by a recording start, and a liveness
delivery (`onFaceCaptured` with the flag `true`) by a passed verification.
The login still frame, however, is captured by the `onstop` handler before
its verification request: whenever the handler emits
`Out.frameLoginTaken` it is the handler's first output. -/
theorem c2_phase_order (c : Ctx) (evs : List Event) (s2 : WState)
    (outs : List Out) (hx : exec c initState evs = some (s2, outs)) :
    (∀ pre post, outs = pre ++ Out.recStart :: post →
      pre.any isAcquire = true) ∧
    (∀ pre post, outs = pre ++ Out.request :: post →
      pre.any isRecStart = true) ∧
    (∀ pre post d ds, outs = pre ++ Out.cb d ds true :: post →
      pre.any isApiPass = true) ∧
    (∀ (cx : Ctx) (sx : WState) (oin : OnstopIn),
      Out.frameLoginTaken ∈ (onstopM cx sx oin).2 →
      ∃ rest, (onstopM cx sx oin).2 = Out.frameLoginTaken :: rest) := by
  obtain ⟨hokA, -⟩ := exec_okFrom c isLiveDelivery isApiPass bitPass
    (pairA_step c) evs initState s2 outs hx
  obtain ⟨hokB, -⟩ := exec_okFrom c isRequest isRecStart bitRec
    (pairB_step c) evs initState s2 outs hx
  obtain ⟨hokC, -⟩ := exec_okFrom c isRecStart isAcquire bitCam
    (pairC_step c) evs initState s2 outs hx
  rw [show bitPass initState = false from rfl] at hokA
  rw [show bitRec initState = false from rfl] at hokB
  rw [show bitCam initState = false from rfl] at hokC
  refine ⟨?_, ?_, ?_, onstopM_loginFrame_first⟩
  · intro pre post hsplit
    rw [hsplit] at hokC
    have hte : ∀ x, isAcquire x = true → isRecStart x = false := by
      intro x hx2
      cases x <;> simp_all [isAcquire, isRecStart]
    rcases okFrom_decomp isRecStart isAcquire hte pre Out.recStart post false
        hokC (by simp [isRecStart]) with h | h
    · exact Bool.noConfusion h
    · exact h
  · intro pre post hsplit
    rw [hsplit] at hokB
    have hte : ∀ x, isRecStart x = true → isRequest x = false := by
      intro x hx2
      cases x <;> simp_all [isRecStart, isRequest]
    rcases okFrom_decomp isRequest isRecStart hte pre Out.request post false
        hokB (by simp [isRequest]) with h | h
    · exact Bool.noConfusion h
    · exact h
  · intro pre post d ds hsplit
    rw [hsplit] at hokA
    have hte : ∀ x, isApiPass x = true → isLiveDelivery x = false := by
      intro x hx2
      cases x <;> simp_all [isApiPass, isLiveDelivery, isCbTrue, isFrameFinal]
    rcases okFrom_decomp isLiveDelivery isApiPass hte pre (Out.cb d ds true)
        post false hokA (by simp [isLiveDelivery, isCbTrue]) with h | h
    · exact Bool.noConfusion h
    · exact h

theorem c2_phase_order_witness :
    (∀ pre post, passOuts = pre ++ Out.recStart :: post →
      pre.any isAcquire = true) ∧
    (∀ pre post, passOuts = pre ++ Out.request :: post →
      pre.any isRecStart = true) ∧
    (∀ pre post d ds, passOuts = pre ++ Out.cb d ds true :: post →
      pre.any isApiPass = true) ∧
    (∀ (cx : Ctx) (sx : WState) (oin : OnstopIn),
      Out.frameLoginTaken ∈ (onstopM cx sx oin).2 →
      ∃ rest, (onstopM cx sx oin).2 = Out.frameLoginTaken :: rest) :=
  c2_phase_order Ctx.login passEvents passFinal passOuts rfl

/-- Counterexample to claim C2 as stated: in this login run the still
frame (`Out.frameLoginTaken`) appears in the output trace after only the
acquisition and the recording start — before the verification request and
with no `Out.apiPass` in its prefix — so the frame used for the capture
result is taken before remote verification completes. -/
theorem c2_counterexample :
    (exec Ctx.login initState demoEvents).map Prod.snd =
      some ([Out.acquire 0, Out.recStart] ++ Out.frameLoginTaken ::
        [Out.trackStop 0, Out.request, Out.cb none none false]) ∧
    [Out.acquire 0, Out.recStart].any isApiPass = false := by
  exact ⟨rfl, rfl⟩

/-- Claim C4.  In every execution of the widget from its initial state, an
`onFaceCaptured` call with the liveness flag `true` occurs only after an
earlier output recorded the remote API returning `isLivePerson === true`:
every true callback in the trace is preceded by `Out.apiPass`. -/
theorem c4_true_callback_after_api_pass (c : Ctx) (evs : List Event)
    (s2 : WState) (outs pre post : List Out) (d : Option String)
    (ds : Option (List Int))
    (hx : exec c initState evs = some (s2, outs))
    (hsplit : outs = pre ++ Out.cb d ds true :: post) :
    pre.any isApiPass = true := by
  obtain ⟨hok, -⟩ := exec_okFrom c isLiveDelivery isApiPass bitPass
    (pairA_step c) evs initState s2 outs hx
  rw [show bitPass initState = false from rfl, hsplit] at hok
  have hte : ∀ x, isApiPass x = true → isLiveDelivery x = false := by
    intro x hx2
    cases x <;> simp_all [isApiPass, isLiveDelivery, isCbTrue, isFrameFinal]
  rcases okFrom_decomp isLiveDelivery isApiPass hte pre (Out.cb d ds true)
      post false hok (by simp [isLiveDelivery, isCbTrue]) with h | h
  · exact Bool.noConfusion h
  · exact h

theorem c4_witness :
    exec Ctx.login initState passEvents = some (passFinal, passOuts) ∧
    passOuts = passPre ++ Out.cb (some "frame") (some [1, 2]) true :: [] ∧
    passPre.any isApiPass = true :=
  ⟨rfl, rfl,
    c4_true_callback_after_api_pass Ctx.login passEvents passFinal passOuts
      passPre [] (some "frame") (some [1, 2]) rfl rfl⟩

/-- Claim C7.  The widget holds at most one camera handle at any time:
`startCamera` launches no new acquisition when a start is already in
progress or a current stream exists with the camera active, and along
every execution from the initial state at most one acquired stream has
unstopped tracks, any such stream is the currently held one, and after
the unmount cleanup none remains. -/
theorem c7_single_camera_handle (c : Ctx) :
    (∀ (s : WState) (p : CamPurpose) (renv : RecEnv),
      s.startingCamera = true ∨
        (s.currentStream.isSome = true ∧ s.cameraActive = true) →
      (startCameraSyncM c s p renv).1.pendingCamera = s.pendingCamera) ∧
    (∀ (evs : List Event) (s2 : WState) (outs : List Out),
      exec c initState evs = some (s2, outs) →
      s2.liveStreams.length ≤ 1 ∧
      (∀ id, id ∈ s2.liveStreams → s2.currentStream = some id) ∧
      (s2.unmounted = true → s2.liveStreams = [])) := by
  constructor
  · intro s p renv hguard
    unfold startCameraSyncM
    split_ifs with hA hB hC hD
    · rfl
    · unfold startRecordingSeqM
      split_ifs with h1 h2 h3
      · rfl
      · rfl
      · rfl
      · rfl
    · rfl
    · rfl
    · rcases hguard with hg | ⟨hg1, hg2⟩
      · exact absurd hg hA
      · exact absurd (by rw [hg1, hg2]; rfl) hB
  · intro evs s2 outs hx
    have hinv2 := inv_exec c evs initState s2 outs (inv_init c) hx
    cases hum : s2.unmounted
    · have hcore := hinv2.1 hum
      have hs := hcore.streams_eq
      rcases hc2 : s2.currentStream with _ | id0 <;> rw [hc2] at hs
      · refine ⟨?_, ?_, ?_⟩
        · rw [hs]; simp
        · intro id hid; rw [hs] at hid; simp at hid
        · intro habs; exact Bool.noConfusion habs
      · refine ⟨?_, ?_, ?_⟩
        · rw [hs]; simp
        · intro id hid
          rw [hs] at hid
          simp at hid
          rw [hid]
        · intro habs; exact Bool.noConfusion habs
    · have hl := hinv2.2 hum
      refine ⟨?_, ?_, fun _ => hl⟩
      · rw [hl]; simp
      · intro id hid; rw [hl] at hid; simp at hid

theorem c7_single_camera_handle_witness :
    ((startCameraSyncM Ctx.login { initState with startingCamera := true }
        CamPurpose.videoLiveness { streamOk := true, recInitOk := true }
        ).1.pendingCamera =
      ({ initState with startingCamera := true } : WState).pendingCamera) ∧
    (initState.liveStreams.length ≤ 1 ∧
      (∀ id, id ∈ initState.liveStreams →
        initState.currentStream = some id) ∧
      (initState.unmounted = true → initState.liveStreams = [])) :=
  ⟨(c7_single_camera_handle Ctx.login).1
      { initState with startingCamera := true } CamPurpose.videoLiveness
      { streamOk := true, recInitOk := true } (Or.inl rfl),
    (c7_single_camera_handle Ctx.login).2 [] initState [] rfl⟩

/-! ## Witnesses for the remaining hypothesis-bearing claim theorems -/

theorem c1_liveness_pass_witness :
    passOnstop.blobSize ≤ MAX_VIDEO_SIZE_MB * 1024 * 1024 ∧
    livenessPass (onstopM Ctx.login initState passOnstop).1.step = true :=
  ⟨by decide,
    (c1_liveness_pass_iff Ctx.login initState passOnstop (by decide)).mpr
      ⟨passBody, "inner", Json.obj [("response", Json.str "fin")], "fin",
        Json.obj [("isLivePerson", Json.bool true)],
        rfl, rfl, rfl, rfl, rfl, rfl⟩⟩

theorem c3_api_failure_witness :
    (onstopM Ctx.login initState demoOnstop).1.error =
      some ErrTag.apiFailure ∧
    (onstopM Ctx.login initState demoOnstop).1.step =
      LivenessStep.liveness_failed_or_error ∧
    (onstopM Ctx.login initState demoOnstop).2.filter isCb =
      [Out.cb none none false] :=
  c3_api_failure_behaviour Ctx.login initState demoOnstop (by decide) rfl

theorem c9_oversized_video_witness :
    (onstopM Ctx.login initState bigOnstop).1.error =
      some ErrTag.videoTooBig ∧
    (onstopM Ctx.login initState bigOnstop).1.step =
      LivenessStep.liveness_failed_or_error ∧
    (onstopM Ctx.login initState bigOnstop).1.verifying = false ∧
    (onstopM Ctx.login initState bigOnstop).2.filter isCb =
      [Out.cb none none false] ∧
    Out.request ∉ (onstopM Ctx.login initState bigOnstop).2 :=
  c9_oversized_video Ctx.login initState bigOnstop (by decide)

theorem c10_manual_capture_witness :
    (manualM Ctx.signup manualState manualInDemo).2.filter isCb =
      [Out.cb (some "frame") none true] ∧
    (manualM Ctx.signup manualState manualInDemo).1.step =
      LivenessStep.initial ∧
    (manualM Ctx.signup manualState manualInDemo).1.currentStream = none ∧
    (manualM Ctx.signup manualState manualInDemo).1.cameraActive = false :=
  c10_manual_capture_null_descriptor Ctx.signup manualState manualInDemo
    rfl rfl rfl rfl (Or.inl rfl) rfl

theorem c8_descriptor_provenance_witness :
    (some [1, 2] : Option (List Int)) = none ∨
    (some [1, 2] : Option (List Int)) =
      passOnstop.detection.map (fun det => det.descriptor) :=
  c8_descriptor_provenance.1 Ctx.login { initState with modelsLoaded := true }
    passOnstop (some "frame") (some [1, 2]) true (by decide)

theorem c5_auth_guards_witness :
    ("a" : String) ≠ "" ∧ ("b" : String) ≠ "" ∧
    strFalsy (some "u") = false ∧
    (some [1] : Option (List Int)).isSome = true ∧
    (some true : Option Bool) = some true :=
  c5_auth_guards.2.2.1 "a" "b" (some "u") (some [1]) (some true) (by decide)

theorem c6_timed_recording_witness :
    (timerCallback (some RecorderPhase.recording)).2 = true :=
  (c6_timed_recording_stop.2.2.1 (some RecorderPhase.recording)).mpr rfl

end FaceSip
